import Mathlib

/-!
Shallow embedding of the UAV strategic deconfliction system
(`strategic_deconfliction_2d.py` and `strategic_deconfliction_3d.py`).

Real-valued quantities of the source (Python floats) are modelled as
rationals `ℚ`, so that every definition is executable and exact.  The one
place where the source leaves the rationals is `math.sqrt` inside
`distance_2d` / `distance_3d`; there the embedding carries the *squared*
distance and phrases the source's comparison `sqrt d ≤ safety` through the
equivalent `0 ≤ safety ∧ d ≤ safety ^ 2` (the equivalence over `ℝ` is
`Real.sqrt_le_iff`, restated below as `conflict_cond_iff_sqrt_le`).
-/

/-- Python's `round` rounds half to even.  Integer result of rounding `q`. -/
def roundHalfEven (q : ℚ) : ℤ :=
  if Int.fract q < 1/2 then ⌊q⌋
  else if 1/2 < Int.fract q then ⌊q⌋ + 1
  else if ⌊q⌋ % 2 = 0 then ⌊q⌋ else ⌊q⌋ + 1

/-- `round(q, 2)` of the source: round to 2 decimal places, half to even. -/
def round2 (q : ℚ) : ℚ := (roundHalfEven (100 * q) : ℚ) / 100

/-- Report status strings `"CLEAR"` / `"CONFLICT"` of the source. -/
inductive Status where
  | CLEAR : Status
  | CONFLICT : Status
deriving DecidableEq

/-- All index pairs `i < j` of a list, enumerated as in the source's nested
`for i / for j in range(i+1, ...)` loops: outer element first, inner index
ascending. -/
def all_pairs : List α → List (α × α)
  | [] => []
  | x :: xs => (xs.map (fun y => (x, y))) ++ all_pairs xs

/-- The times visited by the sampling loop when it is entered with a positive
step: `start_time + k * step` for `k = 1, 2, …` while `≤ end_time`, i.e.
`k ≤ ⌊(end_time - start_time) / step⌋` (see `conflict_scan_from_start`). -/
def sample_times (start_time end_time step : ℚ) : List ℚ :=
  (List.range (⌊(end_time - start_time) / step⌋).toNat).map
    (fun k : ℕ => start_time + (k + 1) * step)

namespace D2

/-- A 2D waypoint `(x, y, t)` of `strategic_deconfliction_2d.py`. -/
structure Pt where
  x : ℚ
  y : ℚ
  t : ℚ
deriving DecidableEq

/-- Radicand of `distance_2d`: the source returns
`math.sqrt ((p1[0]-p2[0])**2 + (p1[1]-p2[1])**2)`; the embedding carries this
squared distance. -/
def distance_sq (p1 p2 : ℚ × ℚ) : ℚ := (p1.1 - p2.1) ^ 2 + (p1.2 - p2.2) ^ 2

/-- `sort_path_by_time`: Python's `sorted(path, key=lambda p: p[2])`, a stable
merge sort on the timestamp. -/
def sort_path_by_time (path : List Pt) : List Pt :=
  path.mergeSort (fun a b => a.t ≤ b.t)

/-- `interpolate(p_start, p_end, t)` of the 2D source. -/
def interpolate (p_start p_end : Pt) (t : ℚ) : ℚ × ℚ :=
  if p_end.t = p_start.t then (p_start.x, p_start.y)
  else
    let ratio := (t - p_start.t) / (p_end.t - p_start.t)
    (p_start.x + ratio * (p_end.x - p_start.x),
     p_start.y + ratio * (p_end.y - p_start.y))

/-- `get_position_at_time(path, t)`: scan consecutive waypoint pairs, return
the interpolation on the first pair whose timestamps bracket `t`, else
`None`. -/
def get_position_at_time : List Pt → ℚ → Option (ℚ × ℚ)
  | p :: q :: rest, t =>
      if p.t ≤ t ∧ t ≤ q.t then some (interpolate p q t)
      else get_position_at_time (q :: rest) t
  | _, _ => none

/-- One conflict record appended by `check_all_paths_conflict`.  `distSq` is
the squared separation before rounding; the source's `"distance"` field is
`round(Real.sqrt distSq, 2)`. -/
structure ConflictEvent where
  time : ℚ
  location : ℚ × ℚ
  distSq : ℚ
  between : String × String
deriving DecidableEq

/-- The dictionary returned by `check_all_paths_conflict`; the `CLEAR` reply
carries no `"conflicts"` key, modelled as the empty list. -/
structure Report where
  status : Status
  conflicts : List ConflictEvent
deriving DecidableEq

/-- Body of one iteration of the sampling `while` loop: evaluate both
trajectories at `t` and emit a conflict record when both positions exist and
`sqrt (distance_sq pos1 pos2) ≤ s`, phrased equivalently as
`0 ≤ s ∧ distance_sq pos1 pos2 ≤ s ^ 2`. -/
def sample_event (d1 d2 : String) (path1 path2 : List Pt) (s : ℚ) (t : ℚ) :
    Option ConflictEvent :=
  match get_position_at_time path1 t, get_position_at_time path2 t with
  | some pos1, some pos2 =>
      let d := distance_sq pos1 pos2
      if 0 ≤ s ∧ d ≤ s ^ 2 then
        some { time := round2 t
               location := (round2 pos1.1, round2 pos1.2)
               distSq := d
               between := (d1, d2) }
      else none
  | _, _ => none

/-- The sampling `while t <= end_time` loop of `check_all_paths_conflict`,
started at `t` and advancing by `step`.  The source only reaches the loop
with `0 < step`, which the guard records so that the recursion terminates. -/
def conflict_scan (d1 d2 : String) (path1 path2 : List Pt)
    (s step end_time : ℚ) (t : ℚ) : List ConflictEvent :=
  if h : 0 < step ∧ t ≤ end_time then
    (sample_event d1 d2 path1 path2 s t).toList ++
      conflict_scan d1 d2 path1 path2 s step end_time (t + step)
  else []
termination_by (⌈(end_time - t) / step⌉ + 1).toNat
decreasing_by
  have hstep : (0 : ℚ) < step := h.1
  have hle : t ≤ end_time := h.2
  have hq : (end_time - (t + step)) / step = (end_time - t) / step - 1 := by
    field_simp
    ring
  have hc : (0 : ℤ) ≤ ⌈(end_time - t) / step⌉ := by
    apply Int.ceil_nonneg
    apply div_nonneg _ hstep.le
    linarith
  rw [hq, Int.ceil_sub_one]
  omega

/-- `path[0][2]` of the source (only evaluated on paths of length ≥ 2). -/
def first_t (path : List Pt) : ℚ :=
  match path with
  | [] => 0
  | p :: _ => p.t

/-- `path[-1][2]` of the source (only evaluated on paths of length ≥ 2). -/
def last_t (path : List Pt) : ℚ :=
  match path.getLast? with
  | none => 0
  | some p => p.t

/-- `start_time = max(path1[0][2], path2[0][2])` of the source. -/
def overlap_start (path1 path2 : List Pt) : ℚ :=
  max (first_t path1) (first_t path2)

/-- `end_time = min(path1[-1][2], path2[-1][2])` of the source. -/
def overlap_end (path1 path2 : List Pt) : ℚ :=
  min (last_t path1) (last_t path2)

/-- The adaptive step policy: `effective_step = time_step`, replaced by
`mission_duration / 20` when `time_step >= mission_duration`. -/
def effective_step_of (time_step mission_duration : ℚ) : ℚ :=
  if time_step ≥ mission_duration then mission_duration / 20 else time_step

/-- The body of the pair loop of `check_all_paths_conflict` for one pair
`(d1, d2)`: sort both paths, skip degenerate paths, compute the overlap
window, skip non-positive durations and steps, then run the sampling loop
from `start_time + effective_step`. -/
def pair_conflicts (d1 d2 : String) (path1_raw path2_raw : List Pt)
    (safety_distance time_step : ℚ) : List ConflictEvent :=
  let path1 := sort_path_by_time path1_raw
  let path2 := sort_path_by_time path2_raw
  if path1.length < 2 ∨ path2.length < 2 then []
  else
    let start_time := overlap_start path1 path2
    let end_time := overlap_end path1 path2
    let mission_duration := end_time - start_time
    if mission_duration ≤ 0 then []
    else
      let step := effective_step_of time_step mission_duration
      if step ≤ 0 then []
      else conflict_scan d1 d2 path1 path2 safety_distance step end_time
        (start_time + step)

/-- `check_all_paths_conflict(all_drones_paths, safety_distance, time_step)`.
The Python dict is modelled as an insertion-ordered association list with
distinct keys; the source's `drone_names[i]` / dict lookup pairs become
direct pairing of the entries. -/
def check_all_paths_conflict (all_drones_paths : List (String × List Pt))
    (safety_distance time_step : ℚ) : Report :=
  let conflicts := (all_pairs all_drones_paths).flatMap
    (fun pr => pair_conflicts pr.1.1 pr.2.1 pr.1.2 pr.2.2
      safety_distance time_step)
  if conflicts.isEmpty then { status := .CLEAR, conflicts := [] }
  else { status := .CONFLICT, conflicts := conflicts }

/-- The trajectory invariant after normalization: waypoints sorted ascending
by timestamp. -/
def timeSorted (path : List Pt) : Prop :=
  path.Pairwise (fun a b => a.t ≤ b.t)

/-- Strictly increasing timestamps (no duplicate-timestamp degeneracy). -/
def strictTimeSorted (path : List Pt) : Prop :=
  path.Pairwise (fun a b => a.t < b.t)

instance (path : List Pt) : Decidable (timeSorted path) :=
  List.instDecidablePairwise path

instance (path : List Pt) : Decidable (strictTimeSorted path) :=
  List.instDecidablePairwise path

end D2

namespace D3

/-- A 3D waypoint `(x, y, z, t)` of `strategic_deconfliction_3d.py`. -/
structure Pt where
  x : ℚ
  y : ℚ
  z : ℚ
  t : ℚ
deriving DecidableEq

/-- Radicand of `distance_3d`: the source returns
`math.sqrt ((p1[0]-p2[0])**2 + (p1[1]-p2[1])**2 + (p1[2]-p2[2])**2)`; the
embedding carries this squared distance. -/
def distance_sq (p1 p2 : ℚ × ℚ × ℚ) : ℚ :=
  (p1.1 - p2.1) ^ 2 + (p1.2.1 - p2.2.1) ^ 2 + (p1.2.2 - p2.2.2) ^ 2

/-- `sort_path_by_time`: Python's `sorted(path, key=lambda p: p[3])`. -/
def sort_path_by_time (path : List Pt) : List Pt :=
  path.mergeSort (fun a b => a.t ≤ b.t)

/-- `interpolate(p_start, p_end, t)` of the 3D source. -/
def interpolate (p_start p_end : Pt) (t : ℚ) : ℚ × ℚ × ℚ :=
  if p_end.t = p_start.t then (p_start.x, p_start.y, p_start.z)
  else
    let ratio := (t - p_start.t) / (p_end.t - p_start.t)
    (p_start.x + ratio * (p_end.x - p_start.x),
     p_start.y + ratio * (p_end.y - p_start.y),
     p_start.z + ratio * (p_end.z - p_start.z))

/-- `get_position_at_time(path, t)` of the 3D source. -/
def get_position_at_time : List Pt → ℚ → Option (ℚ × ℚ × ℚ)
  | p :: q :: rest, t =>
      if p.t ≤ t ∧ t ≤ q.t then some (interpolate p q t)
      else get_position_at_time (q :: rest) t
  | _, _ => none

/-- One conflict record of the 3D `check_all_paths_conflict`; as in 2D,
`distSq` is the squared separation and the source's `"distance"` field is
`round(Real.sqrt distSq, 2)`. -/
structure ConflictEvent where
  time : ℚ
  location : ℚ × ℚ × ℚ
  distSq : ℚ
  between : String × String
deriving DecidableEq

/-- The dictionary returned by the 3D `check_all_paths_conflict`. -/
structure Report where
  status : Status
  conflicts : List ConflictEvent
deriving DecidableEq

/-- Body of one iteration of the 3D sampling loop; the location is
`tuple(round(v, 2) for v in pos1)`. -/
def sample_event (d1 d2 : String) (path1 path2 : List Pt) (s : ℚ) (t : ℚ) :
    Option ConflictEvent :=
  match get_position_at_time path1 t, get_position_at_time path2 t with
  | some pos1, some pos2 =>
      let d := distance_sq pos1 pos2
      if 0 ≤ s ∧ d ≤ s ^ 2 then
        some { time := round2 t
               location := (round2 pos1.1, round2 pos1.2.1, round2 pos1.2.2)
               distSq := d
               between := (d1, d2) }
      else none
  | _, _ => none

/-- The 3D sampling `while t <= end_time` loop. -/
def conflict_scan (d1 d2 : String) (path1 path2 : List Pt)
    (s step end_time : ℚ) (t : ℚ) : List ConflictEvent :=
  if h : 0 < step ∧ t ≤ end_time then
    (sample_event d1 d2 path1 path2 s t).toList ++
      conflict_scan d1 d2 path1 path2 s step end_time (t + step)
  else []
termination_by (⌈(end_time - t) / step⌉ + 1).toNat
decreasing_by
  have hstep : (0 : ℚ) < step := h.1
  have hq : (end_time - (t + step)) / step = (end_time - t) / step - 1 := by
    field_simp
    ring
  have hc : (0 : ℤ) ≤ ⌈(end_time - t) / step⌉ := by
    apply Int.ceil_nonneg
    apply div_nonneg _ hstep.le
    linarith [h.2]
  rw [hq, Int.ceil_sub_one]
  omega

/-- `path[0][3]` of the 3D source. -/
def first_t (path : List Pt) : ℚ :=
  match path with
  | [] => 0
  | p :: _ => p.t

/-- `path[-1][3]` of the 3D source. -/
def last_t (path : List Pt) : ℚ :=
  match path.getLast? with
  | none => 0
  | some p => p.t

/-- The adaptive step policy of the 3D source (same code as 2D):
`effective_step = time_step`, replaced by `mission_duration / 20` when
`time_step >= mission_duration`. -/
def effective_step_of (time_step mission_duration : ℚ) : ℚ :=
  if time_step ≥ mission_duration then mission_duration / 20 else time_step

/-- `start_time = max(path1[0][3], path2[0][3])` of the 3D source. -/
def overlap_start (path1 path2 : List Pt) : ℚ :=
  max (first_t path1) (first_t path2)

/-- `end_time = min(path1[-1][3], path2[-1][3])` of the 3D source. -/
def overlap_end (path1 path2 : List Pt) : ℚ :=
  min (last_t path1) (last_t path2)

/-- The body of the pair loop of the 3D `check_all_paths_conflict` for one
pair; identical control flow to the 2D variant. -/
def pair_conflicts (d1 d2 : String) (path1_raw path2_raw : List Pt)
    (safety_distance time_step : ℚ) : List ConflictEvent :=
  let path1 := sort_path_by_time path1_raw
  let path2 := sort_path_by_time path2_raw
  if path1.length < 2 ∨ path2.length < 2 then []
  else
    let start_time := overlap_start path1 path2
    let end_time := overlap_end path1 path2
    let mission_duration := end_time - start_time
    if mission_duration ≤ 0 then []
    else
      let step := effective_step_of time_step mission_duration
      if step ≤ 0 then []
      else conflict_scan d1 d2 path1 path2 safety_distance step end_time
        (start_time + step)

/-- The 3D `check_all_paths_conflict`. -/
def check_all_paths_conflict (all_drones_paths : List (String × List Pt))
    (safety_distance time_step : ℚ) : Report :=
  let conflicts := (all_pairs all_drones_paths).flatMap
    (fun pr => pair_conflicts pr.1.1 pr.2.1 pr.1.2 pr.2.2
      safety_distance time_step)
  if conflicts.isEmpty then { status := .CLEAR, conflicts := [] }
  else { status := .CONFLICT, conflicts := conflicts }

/-- The trajectory invariant after normalization (3D): waypoints sorted
ascending by timestamp. -/
def timeSorted (path : List Pt) : Prop :=
  path.Pairwise (fun a b => a.t ≤ b.t)

/-- Strictly increasing timestamps (3D). -/
def strictTimeSorted (path : List Pt) : Prop :=
  path.Pairwise (fun a b => a.t < b.t)

instance (path : List Pt) : Decidable (timeSorted path) :=
  List.instDecidablePairwise path

instance (path : List Pt) : Decidable (strictTimeSorted path) :=
  List.instDecidablePairwise path

end D3

/-- Lift a 2D waypoint `(x, y, t)` to the 3D waypoint `(x, y, 0, t)`. -/
def liftPt (p : D2.Pt) : D3.Pt := { x := p.x, y := p.y, z := 0, t := p.t }

/-- Lift a 2D fleet to a 3D fleet with all altitudes 0. -/
def liftFleet (fleet : List (String × List D2.Pt)) :
    List (String × List D3.Pt) :=
  fleet.map (fun e => (e.1, e.2.map liftPt))

/-- The 3D conflict event corresponding to a 2D one under the `z = 0`
lift: same time, squared distance and pair, location extended by `0`. -/
def liftEvent (e : D2.ConflictEvent) : D3.ConflictEvent :=
  { time := e.time
    location := (e.location.1, e.location.2, 0)
    distSq := e.distSq
    between := e.between }

/-- The substance shared by a conflict event and its pair-swapped mirror:
same sample time, same (squared) separation distance, flipped pair label.
The locations are the two drones' own positions and differ in general. -/
def swappedEvent (e : D2.ConflictEvent) (e' : D2.ConflictEvent) : Prop :=
  e'.time = e.time ∧ e'.distSq = e.distSq ∧
    e'.between = (e.between.2, e.between.1)

/-- 3D version of `swappedEvent`. -/
def swappedEvent3 (e : D3.ConflictEvent) (e' : D3.ConflictEvent) : Prop :=
  e'.time = e.time ∧ e'.distSq = e.distSq ∧
    e'.between = (e.between.2, e.between.1)

namespace D2

theorem conflict_scan_of_past (d1 d2 : String) (p1 p2 : List Pt)
    (s step end_time : ℚ) {t : ℚ} (ht : ¬ t ≤ end_time) :
    conflict_scan d1 d2 p1 p2 s step end_time t = [] := by
  rw [conflict_scan, dif_neg (by tauto)]

theorem conflict_scan_eq_filterMap (d1 d2 : String) (p1 p2 : List Pt)
    (s : ℚ) {step : ℚ} (end_time : ℚ) (hstep : 0 < step) :
    ∀ t : ℚ, conflict_scan d1 d2 p1 p2 s step end_time t =
      ((List.range (⌊(end_time - t) / step⌋ + 1).toNat).map
        (fun k : ℕ => t + k * step)).filterMap (sample_event d1 d2 p1 p2 s) := by
  have hpast : ∀ t : ℚ, ¬ t ≤ end_time →
      ((List.range (⌊(end_time - t) / step⌋ + 1).toNat).map
        (fun k : ℕ => t + k * step)).filterMap (sample_event d1 d2 p1 p2 s) = [] := by
    intro t ht
    have hneg : (end_time - t) / step < 0 :=
      div_neg_of_neg_of_pos (by linarith [not_le.mp ht]) hstep
    have hlt : ⌊(end_time - t) / step⌋ < 0 := Int.floor_lt.mpr (by exact_mod_cast hneg)
    have hz : (⌊(end_time - t) / step⌋ + 1).toNat = 0 := by omega
    rw [hz]
    simp
  have key : ∀ (n : ℕ) (t : ℚ), (⌈(end_time - t) / step⌉ + 1).toNat ≤ n →
      conflict_scan d1 d2 p1 p2 s step end_time t =
      ((List.range (⌊(end_time - t) / step⌋ + 1).toNat).map
        (fun k : ℕ => t + k * step)).filterMap (sample_event d1 d2 p1 p2 s) := by
    intro n
    induction n with
    | zero =>
      intro t hn
      have ht : ¬ t ≤ end_time := by
        intro hle
        have hc0 : (0 : ℤ) ≤ ⌈(end_time - t) / step⌉ :=
          Int.ceil_nonneg (div_nonneg (by linarith) hstep.le)
        omega
      rw [conflict_scan_of_past d1 d2 p1 p2 s step end_time ht, hpast t ht]
    | succ n ih =>
      intro t hn
      by_cases ht : t ≤ end_time
      · have hfl : (0 : ℤ) ≤ ⌊(end_time - t) / step⌋ :=
          Int.floor_nonneg.mpr (div_nonneg (by linarith) hstep.le)
        have hshift : (end_time - (t + step)) / step = (end_time - t) / step - 1 := by
          field_simp
          ring
        have hfl' : ⌊(end_time - (t + step)) / step⌋ = ⌊(end_time - t) / step⌋ - 1 := by
          rw [hshift, Int.floor_sub_one]
        have hcl : ⌈(end_time - (t + step)) / step⌉ = ⌈(end_time - t) / step⌉ - 1 := by
          rw [hshift, Int.ceil_sub_one]
        have hc0 : (0 : ℤ) ≤ ⌈(end_time - t) / step⌉ :=
          Int.ceil_nonneg (div_nonneg (by linarith) hstep.le)
        have ihs := ih (t + step) (by omega)
        rw [conflict_scan, dif_pos ⟨hstep, ht⟩, ihs]
        have hN : (⌊(end_time - t) / step⌋ + 1).toNat =
            (⌊(end_time - (t + step)) / step⌋ + 1).toNat + 1 := by omega
        rw [hN, List.range_succ_eq_map, List.map_cons, List.map_map,
          List.filterMap_cons]
        have hmap : ∀ l : List ℕ,
            (l.map ((fun k : ℕ => t + (k : ℚ) * step) ∘ (fun i : ℕ => i + 1))) =
            (l.map (fun k : ℕ => (t + step) + (k : ℚ) * step)) := by
          intro l
          apply List.map_congr_left
          intro k _
          simp only [Function.comp_apply]
          push_cast
          ring
        rw [hmap]
        have ht0 : t + ((0 : ℕ) : ℚ) * step = t := by norm_num
        rw [ht0]
        cases hse : sample_event d1 d2 p1 p2 s t <;> simp [hse]
      · rw [conflict_scan_of_past d1 d2 p1 p2 s step end_time ht, hpast t ht]
  intro t
  exact key (⌈(end_time - t) / step⌉ + 1).toNat t le_rfl

/-- Entering the sampling loop at `start_time + step` visits exactly the
`sample_times`. -/
theorem conflict_scan_from_start (d1 d2 : String) (p1 p2 : List Pt)
    (s : ℚ) {step : ℚ} (start_time end_time : ℚ) (hstep : 0 < step) :
    conflict_scan d1 d2 p1 p2 s step end_time (start_time + step) =
      (sample_times start_time end_time step).filterMap
        (sample_event d1 d2 p1 p2 s) := by
  rw [conflict_scan_eq_filterMap d1 d2 p1 p2 s end_time hstep]
  have hshift : (end_time - (start_time + step)) / step =
      (end_time - start_time) / step - 1 := by
    field_simp
    ring
  have hfl : ⌊(end_time - (start_time + step)) / step⌋ =
      ⌊(end_time - start_time) / step⌋ - 1 := by
    rw [hshift, Int.floor_sub_one]
  unfold sample_times
  rw [hfl]
  have : (⌊(end_time - start_time) / step⌋ - 1 + 1) = ⌊(end_time - start_time) / step⌋ := by
    omega
  rw [this]
  apply congrArg
  apply List.map_congr_left
  intro k _
  ring

/-- `pair_conflicts`, with the sampling loop replaced by its closed form. -/
theorem pair_conflicts_eq (d1 d2 : String) (p1raw p2raw : List Pt)
    (s ts : ℚ) :
    pair_conflicts d1 d2 p1raw p2raw s ts =
      (fun path1 path2 =>
        (fun start_time end_time =>
          (fun step =>
            if path1.length < 2 ∨ path2.length < 2 then []
            else if end_time - start_time ≤ 0 then []
            else if step ≤ 0 then []
            else (sample_times start_time end_time step).filterMap
              (sample_event d1 d2 path1 path2 s))
          (effective_step_of ts (end_time - start_time)))
        (overlap_start path1 path2) (overlap_end path1 path2))
      (sort_path_by_time p1raw) (sort_path_by_time p2raw) := by
  simp only [pair_conflicts]
  split
  · rfl
  · split
    · rfl
    · split
      · rfl
      · rename_i hdeg hdur hstep
        exact conflict_scan_from_start _ _ _ _ _ _ _ (by linarith [not_le.mp hstep])

/-- The conflict list of the report is the concatenation of the per-pair
conflict lists, in pair-enumeration order. -/
theorem check_conflicts_eq (fleet : List (String × List Pt)) (s ts : ℚ) :
    (check_all_paths_conflict fleet s ts).conflicts =
      (all_pairs fleet).flatMap
        (fun pr => pair_conflicts pr.1.1 pr.2.1 pr.1.2 pr.2.2 s ts) := by
  simp only [check_all_paths_conflict]
  split
  · rename_i h
    exact (List.isEmpty_iff.mp h).symm
  · rfl

theorem sort_path_by_time_sorted (path : List Pt) :
    timeSorted (sort_path_by_time path) := by
  have h := @List.sorted_mergeSort Pt (fun a b : Pt => decide (a.t ≤ b.t))
    (fun a b c hab hbc => by
      simp only [decide_eq_true_eq] at *
      exact le_trans hab hbc)
    (fun a b => by
      simp only [Bool.or_eq_true, decide_eq_true_eq]
      exact le_total a.t b.t)
    path
  exact h.imp (fun hab => by simpa using hab)

theorem sort_path_by_time_of_sorted {path : List Pt} (h : timeSorted path) :
    sort_path_by_time path = path :=
  List.mergeSort_of_sorted (h.imp (fun hab => by simpa using hab))

theorem sort_path_by_time_length (path : List Pt) :
    (sort_path_by_time path).length = path.length :=
  List.length_mergeSort path

theorem first_t_le_last_t_of_sorted {p : Pt} {l : List Pt}
    (h : timeSorted (p :: l)) : p.t ≤ last_t (p :: l) := by
  induction l generalizing p with
  | nil => simp [last_t, List.getLast?]
  | cons q l ih =>
    rw [timeSorted, List.pairwise_cons] at h
    rw [show (List.Pairwise (fun a b : Pt => a.t ≤ b.t) (q :: l)) = timeSorted (q :: l) from rfl] at h
    have hq : q.t ≤ last_t (q :: l) := ih h.2
    have hlast : last_t (p :: q :: l) = last_t (q :: l) := by
      simp [last_t, List.getLast?_cons_cons]
    rw [hlast]
    exact le_trans (h.1 q (by simp)) hq

/-- `get_position_at_time` on a degenerate path (fewer than 2 waypoints). -/
theorem get_position_short {path : List Pt} (h : path.length < 2) (t : ℚ) :
    get_position_at_time path t = none := by
  match path, h with
  | [], _ => rfl
  | [p], _ => rfl

/-- On a sorted path with at least 2 waypoints, `get_position_at_time`
returns a value exactly on the closed interval from the first to the last
timestamp. -/
theorem get_position_isSome_iff :
    ∀ (path : List Pt), timeSorted path → 2 ≤ path.length → ∀ t : ℚ,
      (get_position_at_time path t).isSome ↔
        (first_t path ≤ t ∧ t ≤ last_t path)
  | p :: q :: rest, hs, _, t => by
    rw [timeSorted, List.pairwise_cons] at hs
    rw [show (List.Pairwise (fun a b : Pt => a.t ≤ b.t) (q :: rest)) = timeSorted (q :: rest) from rfl] at hs
    have hpq : p.t ≤ q.t := hs.1 q (by simp)
    by_cases hc : p.t ≤ t ∧ t ≤ q.t
    · rw [get_position_at_time, if_pos hc]
      have hql : q.t ≤ last_t (q :: rest) := first_t_le_last_t_of_sorted hs.2
      have hlast : last_t (p :: q :: rest) = last_t (q :: rest) := by
        simp [last_t, List.getLast?_cons_cons]
      simp only [Option.isSome_some, true_iff, first_t, hlast]
      exact ⟨hc.1, le_trans hc.2 hql⟩
    · rw [get_position_at_time, if_neg hc]
      match rest with
      | [] =>
        simp only [get_position_at_time, Option.isSome_none,
          Bool.false_eq_true, false_iff, first_t, last_t, List.getLast?_cons_cons,
          List.getLast?_singleton]
        intro hcontra
        exact hc hcontra
      | r :: rest' =>
        have ih := get_position_isSome_iff (q :: r :: rest') hs.2 (by simp) t
        rw [ih]
        have hlast : last_t (p :: q :: r :: rest') = last_t (q :: r :: rest') := by
          simp [last_t, List.getLast?_cons_cons]
        simp only [first_t, hlast]
        constructor
        · rintro ⟨hq, hl⟩
          exact ⟨le_trans hpq hq, hl⟩
        · rintro ⟨hp, hl⟩
          refine ⟨?_, hl⟩
          by_contra hqt
          exact hc ⟨hp, le_of_lt (lt_of_not_le hqt)⟩

/-- On a strictly sorted path, lookup at a waypoint's own timestamp returns
exactly that waypoint's position (exact in `ℚ`). -/
theorem get_position_at_waypoint :
    ∀ (path : List Pt), strictTimeSorted path → 2 ≤ path.length →
      ∀ (i : ℕ) (hi : i < path.length),
        get_position_at_time path (path[i].t) = some (path[i].x, path[i].y)
  | p :: q :: rest, hs, _, i, hi => by
    rw [strictTimeSorted, List.pairwise_cons] at hs
    rw [show (List.Pairwise (fun a b : Pt => a.t < b.t) (q :: rest)) = strictTimeSorted (q :: rest) from rfl] at hs
    have hpq : p.t < q.t := hs.1 q (by simp)
    match i, hi with
    | 0, _ =>
      simp only [List.getElem_cons_zero]
      rw [get_position_at_time, if_pos ⟨le_refl p.t, le_of_lt hpq⟩]
      rw [interpolate, if_neg (by intro h; exact absurd h (ne_of_gt hpq))]
      simp only [sub_self, zero_div, zero_mul, add_zero]
    | 1, _ =>
      simp only [List.getElem_cons_succ, List.getElem_cons_zero]
      rw [get_position_at_time, if_pos ⟨le_of_lt hpq, le_refl q.t⟩]
      rw [interpolate, if_neg (by intro h; exact absurd h (ne_of_gt hpq))]
      have hne : q.t - p.t ≠ 0 := sub_ne_zero.mpr (ne_of_gt hpq)
      rw [div_self hne]
      simp only [one_mul]
      have hx : p.x + (q.x - p.x) = q.x := by ring
      have hy : p.y + (q.y - p.y) = q.y := by ring
      rw [hx, hy]
    | (k + 2), hi =>
      have hmem : (p :: q :: rest)[k + 2] ∈ rest := by
        simp only [List.getElem_cons_succ]
        exact List.getElem_mem _
      have hqt : q.t < (p :: q :: rest)[k + 2].t := by
        have h2 := hs.2
        rw [strictTimeSorted, List.pairwise_cons] at h2
        exact h2.1 _ hmem
      rw [get_position_at_time, if_neg (by
        rintro ⟨_, hle⟩
        simp only [List.getElem_cons_succ] at hle hqt
        exact absurd hle (not_le.mpr hqt))]
      have hlen : 2 ≤ (q :: rest).length := by
        have : k + 2 < (p :: q :: rest).length := hi
        simp only [List.length_cons] at this ⊢
        omega
      have ih := get_position_at_waypoint (q :: rest) hs.2 hlen (k + 1)
        (by simp only [List.length_cons] at hi ⊢; omega)
      simpa only [List.getElem_cons_succ] using ih

/-- The status is `CONFLICT` exactly when the conflict list is non-empty. -/
theorem check_status_conflict_iff (fleet : List (String × List Pt)) (s ts : ℚ) :
    (check_all_paths_conflict fleet s ts).status = Status.CONFLICT ↔
      (check_all_paths_conflict fleet s ts).conflicts ≠ [] := by
  simp only [check_all_paths_conflict]
  split
  · simp
  · rename_i h
    rw [List.isEmpty_iff] at h
    simp [h]

end D2

/-- The conflict test used in `sample_event` is exactly the source's
`math.sqrt d ≤ s` comparison, over the reals. -/
theorem conflict_cond_iff_sqrt_le (d s : ℚ) :
    (0 ≤ s ∧ d ≤ s ^ 2) ↔ Real.sqrt (d : ℝ) ≤ (s : ℝ) := by
  rw [Real.sqrt_le_iff]
  constructor
  · rintro ⟨hs, hd⟩
    constructor
    · exact_mod_cast hs
    · exact_mod_cast hd
  · rintro ⟨hs, hd⟩
    constructor
    · exact_mod_cast hs
    · exact_mod_cast hd

namespace D3

theorem conflict_scan_of_past3 (d1 d2 : String) (p1 p2 : List Pt)
    (s step end_time : ℚ) {t : ℚ} (ht : ¬ t ≤ end_time) :
    conflict_scan d1 d2 p1 p2 s step end_time t = [] := by
  rw [conflict_scan, dif_neg (by tauto)]

theorem conflict_scan_eq_filterMap3 (d1 d2 : String) (p1 p2 : List Pt)
    (s : ℚ) {step : ℚ} (end_time : ℚ) (hstep : 0 < step) :
    ∀ t : ℚ, conflict_scan d1 d2 p1 p2 s step end_time t =
      ((List.range (⌊(end_time - t) / step⌋ + 1).toNat).map
        (fun k : ℕ => t + k * step)).filterMap (sample_event d1 d2 p1 p2 s) := by
  have hpast : ∀ t : ℚ, ¬ t ≤ end_time →
      ((List.range (⌊(end_time - t) / step⌋ + 1).toNat).map
        (fun k : ℕ => t + k * step)).filterMap (sample_event d1 d2 p1 p2 s) = [] := by
    intro t ht
    have hneg : (end_time - t) / step < 0 :=
      div_neg_of_neg_of_pos (by linarith [not_le.mp ht]) hstep
    have hlt : ⌊(end_time - t) / step⌋ < 0 := Int.floor_lt.mpr (by exact_mod_cast hneg)
    have hz : (⌊(end_time - t) / step⌋ + 1).toNat = 0 := by omega
    rw [hz]
    simp
  have key : ∀ (n : ℕ) (t : ℚ), (⌈(end_time - t) / step⌉ + 1).toNat ≤ n →
      conflict_scan d1 d2 p1 p2 s step end_time t =
      ((List.range (⌊(end_time - t) / step⌋ + 1).toNat).map
        (fun k : ℕ => t + k * step)).filterMap (sample_event d1 d2 p1 p2 s) := by
    intro n
    induction n with
    | zero =>
      intro t hn
      have ht : ¬ t ≤ end_time := by
        intro hle
        have hc0 : (0 : ℤ) ≤ ⌈(end_time - t) / step⌉ :=
          Int.ceil_nonneg (div_nonneg (by linarith) hstep.le)
        omega
      rw [conflict_scan_of_past3 d1 d2 p1 p2 s step end_time ht, hpast t ht]
    | succ n ih =>
      intro t hn
      by_cases ht : t ≤ end_time
      · have hfl : (0 : ℤ) ≤ ⌊(end_time - t) / step⌋ :=
          Int.floor_nonneg.mpr (div_nonneg (by linarith) hstep.le)
        have hshift : (end_time - (t + step)) / step = (end_time - t) / step - 1 := by
          field_simp
          ring
        have hfl' : ⌊(end_time - (t + step)) / step⌋ = ⌊(end_time - t) / step⌋ - 1 := by
          rw [hshift, Int.floor_sub_one]
        have hcl : ⌈(end_time - (t + step)) / step⌉ = ⌈(end_time - t) / step⌉ - 1 := by
          rw [hshift, Int.ceil_sub_one]
        have hc0 : (0 : ℤ) ≤ ⌈(end_time - t) / step⌉ :=
          Int.ceil_nonneg (div_nonneg (by linarith) hstep.le)
        have ihs := ih (t + step) (by omega)
        rw [conflict_scan, dif_pos ⟨hstep, ht⟩, ihs]
        have hN : (⌊(end_time - t) / step⌋ + 1).toNat =
            (⌊(end_time - (t + step)) / step⌋ + 1).toNat + 1 := by omega
        rw [hN, List.range_succ_eq_map, List.map_cons, List.map_map,
          List.filterMap_cons]
        have hmap : ∀ l : List ℕ,
            (l.map ((fun k : ℕ => t + (k : ℚ) * step) ∘ (fun i : ℕ => i + 1))) =
            (l.map (fun k : ℕ => (t + step) + (k : ℚ) * step)) := by
          intro l
          apply List.map_congr_left
          intro k _
          simp only [Function.comp_apply]
          push_cast
          ring
        rw [hmap]
        have ht0 : t + ((0 : ℕ) : ℚ) * step = t := by norm_num
        rw [ht0]
        cases hse : sample_event d1 d2 p1 p2 s t <;> simp [hse]
      · rw [conflict_scan_of_past3 d1 d2 p1 p2 s step end_time ht, hpast t ht]
  intro t
  exact key (⌈(end_time - t) / step⌉ + 1).toNat t le_rfl

/-- Entering the sampling loop at `start_time + step` visits exactly the
`sample_times`. -/
theorem conflict_scan_from_start3 (d1 d2 : String) (p1 p2 : List Pt)
    (s : ℚ) {step : ℚ} (start_time end_time : ℚ) (hstep : 0 < step) :
    conflict_scan d1 d2 p1 p2 s step end_time (start_time + step) =
      (sample_times start_time end_time step).filterMap
        (sample_event d1 d2 p1 p2 s) := by
  rw [conflict_scan_eq_filterMap3 d1 d2 p1 p2 s end_time hstep]
  have hshift : (end_time - (start_time + step)) / step =
      (end_time - start_time) / step - 1 := by
    field_simp
    ring
  have hfl : ⌊(end_time - (start_time + step)) / step⌋ =
      ⌊(end_time - start_time) / step⌋ - 1 := by
    rw [hshift, Int.floor_sub_one]
  unfold sample_times
  rw [hfl]
  have : (⌊(end_time - start_time) / step⌋ - 1 + 1) = ⌊(end_time - start_time) / step⌋ := by
    omega
  rw [this]
  apply congrArg
  apply List.map_congr_left
  intro k _
  ring

/-- `pair_conflicts`, with the sampling loop replaced by its closed form. -/
theorem pair_conflicts_eq3 (d1 d2 : String) (p1raw p2raw : List Pt)
    (s ts : ℚ) :
    pair_conflicts d1 d2 p1raw p2raw s ts =
      (fun path1 path2 =>
        (fun start_time end_time =>
          (fun step =>
            if path1.length < 2 ∨ path2.length < 2 then []
            else if end_time - start_time ≤ 0 then []
            else if step ≤ 0 then []
            else (sample_times start_time end_time step).filterMap
              (sample_event d1 d2 path1 path2 s))
          (effective_step_of ts (end_time - start_time)))
        (overlap_start path1 path2) (overlap_end path1 path2))
      (sort_path_by_time p1raw) (sort_path_by_time p2raw) := by
  simp only [pair_conflicts]
  split
  · rfl
  · split
    · rfl
    · split
      · rfl
      · rename_i hdeg hdur hstep
        exact conflict_scan_from_start3 _ _ _ _ _ _ _ (by linarith [not_le.mp hstep])

/-- The conflict list of the report is the concatenation of the per-pair
conflict lists, in pair-enumeration order. -/
theorem check_conflicts_eq3 (fleet : List (String × List Pt)) (s ts : ℚ) :
    (check_all_paths_conflict fleet s ts).conflicts =
      (all_pairs fleet).flatMap
        (fun pr => pair_conflicts pr.1.1 pr.2.1 pr.1.2 pr.2.2 s ts) := by
  simp only [check_all_paths_conflict]
  split
  · rename_i h
    exact (List.isEmpty_iff.mp h).symm
  · rfl

theorem sort_path_by_time_sorted3 (path : List Pt) :
    timeSorted (sort_path_by_time path) := by
  have h := @List.sorted_mergeSort Pt (fun a b : Pt => decide (a.t ≤ b.t))
    (fun a b c hab hbc => by
      simp only [decide_eq_true_eq] at *
      exact le_trans hab hbc)
    (fun a b => by
      simp only [Bool.or_eq_true, decide_eq_true_eq]
      exact le_total a.t b.t)
    path
  exact h.imp (fun hab => by simpa using hab)

theorem sort_path_by_time_of_sorted3 {path : List Pt} (h : timeSorted path) :
    sort_path_by_time path = path :=
  List.mergeSort_of_sorted (h.imp (fun hab => by simpa using hab))

theorem sort_path_by_time_length3 (path : List Pt) :
    (sort_path_by_time path).length = path.length :=
  List.length_mergeSort path

theorem first_t_le_last_t_of_sorted3 {p : Pt} {l : List Pt}
    (h : timeSorted (p :: l)) : p.t ≤ last_t (p :: l) := by
  induction l generalizing p with
  | nil => simp [last_t, List.getLast?]
  | cons q l ih =>
    rw [timeSorted, List.pairwise_cons] at h
    rw [show (List.Pairwise (fun a b : Pt => a.t ≤ b.t) (q :: l)) = timeSorted (q :: l) from rfl] at h
    have hq : q.t ≤ last_t (q :: l) := ih h.2
    have hlast : last_t (p :: q :: l) = last_t (q :: l) := by
      simp [last_t, List.getLast?_cons_cons]
    rw [hlast]
    exact le_trans (h.1 q (by simp)) hq

/-- `get_position_at_time` on a degenerate path (fewer than 2 waypoints). -/
theorem get_position_short3 {path : List Pt} (h : path.length < 2) (t : ℚ) :
    get_position_at_time path t = none := by
  match path, h with
  | [], _ => rfl
  | [p], _ => rfl

/-- On a sorted path with at least 2 waypoints, `get_position_at_time`
returns a value exactly on the closed interval from the first to the last
timestamp. -/
theorem get_position_isSome_iff3 :
    ∀ (path : List Pt), timeSorted path → 2 ≤ path.length → ∀ t : ℚ,
      (get_position_at_time path t).isSome ↔
        (first_t path ≤ t ∧ t ≤ last_t path)
  | p :: q :: rest, hs, _, t => by
    rw [timeSorted, List.pairwise_cons] at hs
    rw [show (List.Pairwise (fun a b : Pt => a.t ≤ b.t) (q :: rest)) = timeSorted (q :: rest) from rfl] at hs
    have hpq : p.t ≤ q.t := hs.1 q (by simp)
    by_cases hc : p.t ≤ t ∧ t ≤ q.t
    · rw [get_position_at_time, if_pos hc]
      have hql : q.t ≤ last_t (q :: rest) := first_t_le_last_t_of_sorted3 hs.2
      have hlast : last_t (p :: q :: rest) = last_t (q :: rest) := by
        simp [last_t, List.getLast?_cons_cons]
      simp only [Option.isSome_some, true_iff, first_t, hlast]
      exact ⟨hc.1, le_trans hc.2 hql⟩
    · rw [get_position_at_time, if_neg hc]
      match rest with
      | [] =>
        simp only [get_position_at_time, Option.isSome_none,
          Bool.false_eq_true, false_iff, first_t, last_t, List.getLast?_cons_cons,
          List.getLast?_singleton]
        intro hcontra
        exact hc hcontra
      | r :: rest' =>
        have ih := get_position_isSome_iff3 (q :: r :: rest') hs.2 (by simp) t
        rw [ih]
        have hlast : last_t (p :: q :: r :: rest') = last_t (q :: r :: rest') := by
          simp [last_t, List.getLast?_cons_cons]
        simp only [first_t, hlast]
        constructor
        · rintro ⟨hq, hl⟩
          exact ⟨le_trans hpq hq, hl⟩
        · rintro ⟨hp, hl⟩
          refine ⟨?_, hl⟩
          by_contra hqt
          exact hc ⟨hp, le_of_lt (lt_of_not_le hqt)⟩

/-- On a strictly sorted path, lookup at a waypoint's own timestamp returns
exactly that waypoint's position (exact in `ℚ`). -/
theorem get_position_at_waypoint3 :
    ∀ (path : List Pt), strictTimeSorted path → 2 ≤ path.length →
      ∀ (i : ℕ) (hi : i < path.length),
        get_position_at_time path (path[i].t) = some (path[i].x, path[i].y, path[i].z)
  | p :: q :: rest, hs, _, i, hi => by
    rw [strictTimeSorted, List.pairwise_cons] at hs
    rw [show (List.Pairwise (fun a b : Pt => a.t < b.t) (q :: rest)) = strictTimeSorted (q :: rest) from rfl] at hs
    have hpq : p.t < q.t := hs.1 q (by simp)
    match i, hi with
    | 0, _ =>
      simp only [List.getElem_cons_zero]
      rw [get_position_at_time, if_pos ⟨le_refl p.t, le_of_lt hpq⟩]
      rw [interpolate, if_neg (by intro h; exact absurd h (ne_of_gt hpq))]
      simp only [sub_self, zero_div, zero_mul, add_zero]
    | 1, _ =>
      simp only [List.getElem_cons_succ, List.getElem_cons_zero]
      rw [get_position_at_time, if_pos ⟨le_of_lt hpq, le_refl q.t⟩]
      rw [interpolate, if_neg (by intro h; exact absurd h (ne_of_gt hpq))]
      have hne : q.t - p.t ≠ 0 := sub_ne_zero.mpr (ne_of_gt hpq)
      rw [div_self hne]
      simp only [one_mul]
      have hx : p.x + (q.x - p.x) = q.x := by ring
      have hy : p.y + (q.y - p.y) = q.y := by ring
      have hz : p.z + (q.z - p.z) = q.z := by ring
      rw [hx, hy, hz]
    | (k + 2), hi =>
      have hmem : (p :: q :: rest)[k + 2] ∈ rest := by
        simp only [List.getElem_cons_succ]
        exact List.getElem_mem _
      have hqt : q.t < (p :: q :: rest)[k + 2].t := by
        have h2 := hs.2
        rw [strictTimeSorted, List.pairwise_cons] at h2
        exact h2.1 _ hmem
      rw [get_position_at_time, if_neg (by
        rintro ⟨_, hle⟩
        simp only [List.getElem_cons_succ] at hle hqt
        exact absurd hle (not_le.mpr hqt))]
      have hlen : 2 ≤ (q :: rest).length := by
        have : k + 2 < (p :: q :: rest).length := hi
        simp only [List.length_cons] at this ⊢
        omega
      have ih := get_position_at_waypoint3 (q :: rest) hs.2 hlen (k + 1)
        (by simp only [List.length_cons] at hi ⊢; omega)
      simpa only [List.getElem_cons_succ] using ih

/-- The status is `CONFLICT` exactly when the conflict list is non-empty. -/
theorem check_status_conflict_iff3 (fleet : List (String × List Pt)) (s ts : ℚ) :
    (check_all_paths_conflict fleet s ts).status = Status.CONFLICT ↔
      (check_all_paths_conflict fleet s ts).conflicts ≠ [] := by
  simp only [check_all_paths_conflict]
  split
  · simp
  · rename_i h
    rw [List.isEmpty_iff] at h
    simp [h]

end D3

theorem liftPt_t (p : D2.Pt) : (liftPt p).t = p.t := rfl

theorem sort_path_by_time_lift (path : List D2.Pt) :
    D3.sort_path_by_time (path.map liftPt) =
      (D2.sort_path_by_time path).map liftPt := by
  unfold D2.sort_path_by_time D3.sort_path_by_time
  exact (@List.map_mergeSort D2.Pt D3.Pt (fun a b => decide (a.t ≤ b.t))
    (fun a b => decide (a.t ≤ b.t)) liftPt path (fun a _ b _ => rfl)).symm

theorem interpolate_lift (p q : D2.Pt) (t : ℚ) :
    D3.interpolate (liftPt p) (liftPt q) t =
      ((D2.interpolate p q t).1, (D2.interpolate p q t).2, 0) := by
  unfold D2.interpolate D3.interpolate liftPt
  by_cases h : q.t = p.t
  · simp only [if_pos h]
  · rw [if_neg h]
    simp [Prod.ext_iff, h]

theorem get_position_at_time_lift (path : List D2.Pt) (t : ℚ) :
    D3.get_position_at_time (path.map liftPt) t =
      (D2.get_position_at_time path t).map (fun pos => (pos.1, pos.2, 0)) := by
  match path with
  | [] => rfl
  | [p] => rfl
  | p :: q :: rest =>
    rw [List.map_cons, List.map_cons, D3.get_position_at_time,
      D2.get_position_at_time, liftPt_t, liftPt_t]
    by_cases h : p.t ≤ t ∧ t ≤ q.t
    · rw [if_pos h, if_pos h, interpolate_lift]
      rfl
    · rw [if_neg h, if_neg h, ← List.map_cons]
      exact get_position_at_time_lift (q :: rest) t

theorem distance_sq_lift (a b : ℚ × ℚ) :
    D3.distance_sq (a.1, a.2, 0) (b.1, b.2, 0) = D2.distance_sq a b := by
  unfold D2.distance_sq D3.distance_sq
  ring

theorem round2_zero : round2 0 = 0 := by
  unfold round2 roundHalfEven
  norm_num

theorem sample_event_lift (d1 d2 : String) (p1 p2 : List D2.Pt) (s t : ℚ) :
    D3.sample_event d1 d2 (p1.map liftPt) (p2.map liftPt) s t =
      (D2.sample_event d1 d2 p1 p2 s t).map liftEvent := by
  unfold D2.sample_event D3.sample_event
  rw [get_position_at_time_lift, get_position_at_time_lift]
  cases h1 : D2.get_position_at_time p1 t with
  | none => rfl
  | some pos1 =>
    cases h2 : D2.get_position_at_time p2 t with
    | none => rfl
    | some pos2 =>
      simp only [Option.map_some']
      rw [distance_sq_lift]
      split
      · simp [Option.map_some', liftEvent, round2_zero]
      · rfl

theorem conflict_scan_lift (d1 d2 : String) (p1 p2 : List D2.Pt)
    (s step end_time : ℚ) :
    ∀ t : ℚ, D3.conflict_scan d1 d2 (p1.map liftPt) (p2.map liftPt)
        s step end_time t =
      (D2.conflict_scan d1 d2 p1 p2 s step end_time t).map liftEvent := by
  have key : ∀ (n : ℕ) (t : ℚ), (⌈(end_time - t) / step⌉ + 1).toNat ≤ n →
      D3.conflict_scan d1 d2 (p1.map liftPt) (p2.map liftPt) s step end_time t =
      (D2.conflict_scan d1 d2 p1 p2 s step end_time t).map liftEvent := by
    intro n
    induction n with
    | zero =>
      intro t hn
      by_cases h : 0 < step ∧ t ≤ end_time
      · exfalso
        have hc0 : (0 : ℤ) ≤ ⌈(end_time - t) / step⌉ :=
          Int.ceil_nonneg (div_nonneg (by linarith [h.2]) h.1.le)
        omega
      · rw [D3.conflict_scan, D2.conflict_scan, dif_neg h, dif_neg h]
        rfl
    | succ n ih =>
      intro t hn
      by_cases h : 0 < step ∧ t ≤ end_time
      · have hshift : (end_time - (t + step)) / step = (end_time - t) / step - 1 := by
          have : step ≠ 0 := ne_of_gt h.1
          field_simp
          ring
        have hcl : ⌈(end_time - (t + step)) / step⌉ = ⌈(end_time - t) / step⌉ - 1 := by
          rw [hshift, Int.ceil_sub_one]
        have hc0 : (0 : ℤ) ≤ ⌈(end_time - t) / step⌉ :=
          Int.ceil_nonneg (div_nonneg (by linarith [h.2]) h.1.le)
        rw [D3.conflict_scan, D2.conflict_scan, dif_pos h, dif_pos h,
          List.map_append, sample_event_lift, ih (t + step) (by omega)]
        cases D2.sample_event d1 d2 p1 p2 s t <;> rfl
      · rw [D3.conflict_scan, D2.conflict_scan, dif_neg h, dif_neg h]
        rfl
  intro t
  exact key (⌈(end_time - t) / step⌉ + 1).toNat t le_rfl

theorem first_t_lift (path : List D2.Pt) :
    D3.first_t (path.map liftPt) = D2.first_t path := by
  cases path <;> rfl

theorem last_t_lift (path : List D2.Pt) :
    D3.last_t (path.map liftPt) = D2.last_t path := by
  unfold D2.last_t D3.last_t
  rw [List.getLast?_map]
  cases path.getLast? <;> rfl

theorem overlap_start_lift (p1 p2 : List D2.Pt) :
    D3.overlap_start (p1.map liftPt) (p2.map liftPt) = D2.overlap_start p1 p2 := by
  unfold D2.overlap_start D3.overlap_start
  rw [first_t_lift, first_t_lift]

theorem overlap_end_lift (p1 p2 : List D2.Pt) :
    D3.overlap_end (p1.map liftPt) (p2.map liftPt) = D2.overlap_end p1 p2 := by
  unfold D2.overlap_end D3.overlap_end
  rw [last_t_lift, last_t_lift]

theorem pair_conflicts_lift (d1 d2 : String) (p1 p2 : List D2.Pt) (s ts : ℚ) :
    D3.pair_conflicts d1 d2 (p1.map liftPt) (p2.map liftPt) s ts =
      (D2.pair_conflicts d1 d2 p1 p2 s ts).map liftEvent := by
  unfold D2.pair_conflicts D3.pair_conflicts
  rw [sort_path_by_time_lift, sort_path_by_time_lift]
  simp only [List.length_map, overlap_start_lift, overlap_end_lift]
  have hstep : D3.effective_step_of ts
      (D2.overlap_end (D2.sort_path_by_time p1) (D2.sort_path_by_time p2) -
        D2.overlap_start (D2.sort_path_by_time p1) (D2.sort_path_by_time p2)) =
      D2.effective_step_of ts
      (D2.overlap_end (D2.sort_path_by_time p1) (D2.sort_path_by_time p2) -
        D2.overlap_start (D2.sort_path_by_time p1) (D2.sort_path_by_time p2)) := rfl
  rw [hstep]
  split
  · rfl
  · split
    · rfl
    · split
      · rfl
      · exact conflict_scan_lift _ _ _ _ _ _ _ _

theorem all_pairs_map (f : α → β) (l : List α) :
    all_pairs (l.map f) = (all_pairs l).map (fun pr => (f pr.1, f pr.2)) := by
  induction l with
  | nil => rfl
  | cons x xs ih =>
    simp only [List.map_cons, all_pairs, ih, List.map_append, List.map_map]
    rfl

theorem check_conflicts_lift (fleet : List (String × List D2.Pt)) (s ts : ℚ) :
    (D3.check_all_paths_conflict (liftFleet fleet) s ts).conflicts =
      (D2.check_all_paths_conflict fleet s ts).conflicts.map liftEvent := by
  rw [D2.check_conflicts_eq, D3.check_conflicts_eq3]
  unfold liftFleet
  rw [all_pairs_map, List.flatMap_map, List.map_flatMap]
  congr 1
  funext pr
  simp only [Function.comp_apply]
  exact pair_conflicts_lift pr.1.1 pr.2.1 pr.1.2 pr.2.2 s ts

theorem check_status_lift (fleet : List (String × List D2.Pt)) (s ts : ℚ) :
    (D3.check_all_paths_conflict (liftFleet fleet) s ts).status =
      (D2.check_all_paths_conflict fleet s ts).status := by
  have h3 := D3.check_status_conflict_iff3 (liftFleet fleet) s ts
  have h2 := D2.check_status_conflict_iff fleet s ts
  have hc := check_conflicts_lift fleet s ts
  by_cases h : (D2.check_all_paths_conflict fleet s ts).conflicts = []
  · have h3e : (D3.check_all_paths_conflict (liftFleet fleet) s ts).conflicts = [] := by
      rw [hc, h]
      rfl
    cases hs3 : (D3.check_all_paths_conflict (liftFleet fleet) s ts).status with
    | CLEAR =>
      cases hs2 : (D2.check_all_paths_conflict fleet s ts).status with
      | CLEAR => rfl
      | CONFLICT => exact absurd h (h2.mp hs2)
    | CONFLICT => exact absurd h3e (h3.mp hs3)
  · have h3e : (D3.check_all_paths_conflict (liftFleet fleet) s ts).conflicts ≠ [] := by
      rw [hc]
      simpa using h
    cases hs3 : (D3.check_all_paths_conflict (liftFleet fleet) s ts).status with
    | CLEAR =>
      exfalso
      apply h3e
      by_contra hne
      exact absurd hs3 (by rw [h3.mpr hne]; simp)
    | CONFLICT =>
      cases hs2 : (D2.check_all_paths_conflict fleet s ts).status with
      | CLEAR =>
        exfalso
        apply h
        by_contra hne
        exact absurd hs2 (by rw [h2.mpr hne]; simp)
      | CONFLICT => rfl

theorem length_filterMap_mono {α : Type} {β γ : Type} (f : α → Option β)
    (g : α → Option γ) (l : List α)
    (h : ∀ a ∈ l, (f a).isSome → (g a).isSome) :
    (l.filterMap f).length ≤ (l.filterMap g).length := by
  induction l with
  | nil => simp
  | cons a l ih =>
    have ha := h a (by simp)
    have hl := ih (fun x hx => h x (by simp [hx]))
    rw [List.filterMap_cons, List.filterMap_cons]
    cases hf : f a with
    | none =>
      cases hg : g a with
      | none => exact hl
      | some y => simpa using Nat.le_succ_of_le hl
    | some x =>
      cases hg : g a with
      | none =>
        exfalso
        have := ha (by simp [hf])
        rw [hg] at this
        simp at this
      | some y => simpa using Nat.succ_le_succ hl

theorem length_filterMap_le_of_subset {α : Type} {β : Type} (f : α → Option β)
    {l₁ l₂ : List α} (hnd : l₁.Nodup) (hsub : l₁ ⊆ l₂) :
    (l₁.filterMap f).length ≤ (l₂.filterMap f).length := by
  have h1 : ∀ l : List α, (l.filterMap f).length =
      (l.filter (fun a => (f a).isSome)).length := by
    intro l
    induction l with
    | nil => rfl
    | cons a l ih =>
      rw [List.filterMap_cons, List.filter_cons]
      cases hf : f a <;> simp [hf, ih]
  rw [h1, h1]
  apply List.Subperm.length_le
  apply List.subperm_of_subset (hnd.filter _)
  intro a ha
  rw [List.mem_filter] at ha ⊢
  exact ⟨hsub ha.1, ha.2⟩

theorem length_flatMap_le {α : Type} {β γ : Type} (l : List α)
    (f : α → List β) (g : α → List γ)
    (h : ∀ a ∈ l, (f a).length ≤ (g a).length) :
    (l.flatMap f).length ≤ (l.flatMap g).length := by
  induction l with
  | nil => simp
  | cons a l ih =>
    rw [List.flatMap_cons, List.flatMap_cons, List.length_append,
      List.length_append]
    exact Nat.add_le_add (h a (by simp)) (ih (fun x hx => h x (by simp [hx])))

theorem sample_times_nodup (a b : ℚ) {step : ℚ} (hstep : step ≠ 0) :
    (sample_times a b step).Nodup := by
  unfold sample_times
  apply List.Nodup.map _ (List.nodup_range _)
  intro k1 k2 hk
  simp only at hk
  have h1 : ((k1 : ℚ) + 1) * step = ((k2 : ℚ) + 1) * step := by linarith
  have h2 : ((k1 : ℚ) + 1) = ((k2 : ℚ) + 1) := mul_right_cancel₀ hstep h1
  have : (k1 : ℚ) = (k2 : ℚ) := by linarith
  exact_mod_cast this

theorem sample_times_subset_of_divisor (a b : ℚ) {step' : ℚ} (m : ℕ)
    (hm : 1 ≤ m) (hstep' : 0 < step') :
    sample_times a b ((m : ℚ) * step') ⊆ sample_times a b step' := by
  intro t ht
  unfold sample_times at ht ⊢
  rw [List.mem_map] at ht ⊢
  obtain ⟨k, hk, rfl⟩ := ht
  rw [List.mem_range] at hk
  have hm0 : (0 : ℚ) < (m : ℚ) := by exact_mod_cast Nat.lt_of_lt_of_le Nat.zero_lt_one hm
  have hms : (0 : ℚ) < (m : ℚ) * step' := mul_pos hm0 hstep'
  -- the coarse floor is positive since k is below its toNat
  have hkz : (k : ℤ) < ⌊(b - a) / ((m : ℚ) * step')⌋ := by
    have := hk
    omega
  -- m * floor(x) ≤ floor(m * x)
  have hfl : (m : ℤ) * ⌊(b - a) / ((m : ℚ) * step')⌋ ≤ ⌊(b - a) / step'⌋ := by
    apply Int.le_floor.mpr
    have heq : (b - a) / step' = (m : ℚ) * ((b - a) / ((m : ℚ) * step')) := by
      field_simp
      ring
    rw [heq]
    push_cast
    apply mul_le_mul_of_nonneg_left (Int.floor_le _) (le_of_lt hm0)
  have hpos : 1 ≤ (k + 1) * m := Nat.mul_le_mul (Nat.le_add_left 1 k) hm
  refine ⟨(k + 1) * m - 1, ?_, ?_⟩
  · rw [List.mem_range]
    have hb : ((k + 1) * m : ℤ) ≤ ⌊(b - a) / step'⌋ := by
      calc ((k + 1) * m : ℤ) = (m : ℤ) * (k + 1) := by ring
      _ ≤ (m : ℤ) * ⌊(b - a) / ((m : ℚ) * step')⌋ := by
          apply Int.mul_le_mul_of_nonneg_left (by omega) (by omega)
      _ ≤ ⌊(b - a) / step'⌋ := hfl
    have hb2 : ((((k + 1) * m : ℕ)) : ℤ) ≤ ⌊(b - a) / step'⌋ := by
      exact_mod_cast hb
    omega
  · have hcast : (((k + 1) * m - 1 : ℕ) : ℚ) + 1 = ((k + 1) * m : ℕ) := by
      have h5 : ((k + 1) * m - 1 : ℕ) + 1 = (k + 1) * m :=
        Nat.succ_pred_eq_of_pos (Nat.lt_of_lt_of_le Nat.zero_lt_one hpos)
      exact_mod_cast congrArg (fun n : ℕ => (n : ℚ)) h5
    rw [hcast]
    push_cast
    ring

theorem sample_event_isSome_mono_s (d1 d2 : String) (p1 p2 : List D2.Pt)
    {s s' : ℚ} (h0 : 0 ≤ s') (hss : s' ≤ s) (t : ℚ) :
    (D2.sample_event d1 d2 p1 p2 s' t).isSome = true →
      (D2.sample_event d1 d2 p1 p2 s t).isSome = true := by
  unfold D2.sample_event
  cases D2.get_position_at_time p1 t <;> cases D2.get_position_at_time p2 t <;>
    simp only []
  · simp
  · simp
  · simp
  · split_ifs with h1 h2
    · simp
    · intro _
      exact absurd ⟨h0.trans hss, h1.2.trans (pow_le_pow_left h0 hss 2)⟩ h2
    · simp
    · simp

theorem sample_event_isSome_mono_s3 (d1 d2 : String) (p1 p2 : List D3.Pt)
    {s s' : ℚ} (h0 : 0 ≤ s') (hss : s' ≤ s) (t : ℚ) :
    (D3.sample_event d1 d2 p1 p2 s' t).isSome = true →
      (D3.sample_event d1 d2 p1 p2 s t).isSome = true := by
  unfold D3.sample_event
  cases D3.get_position_at_time p1 t <;> cases D3.get_position_at_time p2 t <;>
    simp only []
  · simp
  · simp
  · simp
  · split_ifs with h1 h2
    · simp
    · intro _
      exact absurd ⟨h0.trans hss, h1.2.trans (pow_le_pow_left h0 hss 2)⟩ h2
    · simp
    · simp

theorem pair_conflicts_length_mono_s (d1 d2 : String) (p1 p2 : List D2.Pt)
    (ts : ℚ) {s s' : ℚ} (h0 : 0 ≤ s') (hss : s' ≤ s) :
    (D2.pair_conflicts d1 d2 p1 p2 s' ts).length ≤
      (D2.pair_conflicts d1 d2 p1 p2 s ts).length := by
  rw [D2.pair_conflicts_eq, D2.pair_conflicts_eq]
  simp only []
  split_ifs with hdeg hdur hstep
  · simp
  · simp
  · simp
  · apply length_filterMap_mono
    intro t _
    exact sample_event_isSome_mono_s d1 d2 _ _ h0 hss t

theorem pair_conflicts_length_mono_s3 (d1 d2 : String) (p1 p2 : List D3.Pt)
    (ts : ℚ) {s s' : ℚ} (h0 : 0 ≤ s') (hss : s' ≤ s) :
    (D3.pair_conflicts d1 d2 p1 p2 s' ts).length ≤
      (D3.pair_conflicts d1 d2 p1 p2 s ts).length := by
  rw [D3.pair_conflicts_eq3, D3.pair_conflicts_eq3]
  simp only []
  split_ifs with hdeg hdur hstep
  · simp
  · simp
  · simp
  · apply length_filterMap_mono
    intro t _
    exact sample_event_isSome_mono_s3 d1 d2 _ _ h0 hss t

theorem pair_conflicts_length_step_divisor (d1 d2 : String) (p1 p2 : List D2.Pt)
    (s : ℚ) {ts' : ℚ} (m : ℕ) (hm : 1 ≤ m) (h0 : 0 < ts')
    (hdur : D2.overlap_end (D2.sort_path_by_time p1) (D2.sort_path_by_time p2) -
        D2.overlap_start (D2.sort_path_by_time p1) (D2.sort_path_by_time p2) ≤ 0 ∨
      (m : ℚ) * ts' <
        D2.overlap_end (D2.sort_path_by_time p1) (D2.sort_path_by_time p2) -
          D2.overlap_start (D2.sort_path_by_time p1) (D2.sort_path_by_time p2)) :
    (D2.pair_conflicts d1 d2 p1 p2 s ((m : ℚ) * ts')).length ≤
      (D2.pair_conflicts d1 d2 p1 p2 s ts').length := by
  rw [D2.pair_conflicts_eq, D2.pair_conflicts_eq]
  simp only []
  by_cases hdeg : (D2.sort_path_by_time p1).length < 2 ∨
      (D2.sort_path_by_time p2).length < 2
  · rw [if_pos hdeg, if_pos hdeg]
  · rw [if_neg hdeg, if_neg hdeg]
    by_cases hd0 : D2.overlap_end (D2.sort_path_by_time p1) (D2.sort_path_by_time p2) -
        D2.overlap_start (D2.sort_path_by_time p1) (D2.sort_path_by_time p2) ≤ 0
    · rw [if_pos hd0, if_pos hd0]
    · rw [if_neg hd0, if_neg hd0]
      have hmD : (m : ℚ) * ts' <
          D2.overlap_end (D2.sort_path_by_time p1) (D2.sort_path_by_time p2) -
            D2.overlap_start (D2.sort_path_by_time p1) (D2.sort_path_by_time p2) := by
        tauto
      have hm1 : (1 : ℚ) ≤ (m : ℚ) := by exact_mod_cast hm
      have hts : ts' ≤ (m : ℚ) * ts' := by nlinarith
      have he1 : D2.effective_step_of ((m : ℚ) * ts')
          (D2.overlap_end (D2.sort_path_by_time p1) (D2.sort_path_by_time p2) -
            D2.overlap_start (D2.sort_path_by_time p1) (D2.sort_path_by_time p2)) =
          (m : ℚ) * ts' := by
        unfold D2.effective_step_of
        rw [if_neg (by linarith)]
      have he2 : D2.effective_step_of ts'
          (D2.overlap_end (D2.sort_path_by_time p1) (D2.sort_path_by_time p2) -
            D2.overlap_start (D2.sort_path_by_time p1) (D2.sort_path_by_time p2)) =
          ts' := by
        unfold D2.effective_step_of
        rw [if_neg (by linarith)]
      rw [he1, he2]
      have hms : (0 : ℚ) < (m : ℚ) * ts' := by nlinarith
      rw [if_neg (by linarith), if_neg (by linarith)]
      exact length_filterMap_le_of_subset _
        (sample_times_nodup _ _ (ne_of_gt hms))
        (sample_times_subset_of_divisor _ _ m hm h0)

theorem pair_conflicts_length_step_divisor3 (d1 d2 : String) (p1 p2 : List D3.Pt)
    (s : ℚ) {ts' : ℚ} (m : ℕ) (hm : 1 ≤ m) (h0 : 0 < ts')
    (hdur : D3.overlap_end (D3.sort_path_by_time p1) (D3.sort_path_by_time p2) -
        D3.overlap_start (D3.sort_path_by_time p1) (D3.sort_path_by_time p2) ≤ 0 ∨
      (m : ℚ) * ts' <
        D3.overlap_end (D3.sort_path_by_time p1) (D3.sort_path_by_time p2) -
          D3.overlap_start (D3.sort_path_by_time p1) (D3.sort_path_by_time p2)) :
    (D3.pair_conflicts d1 d2 p1 p2 s ((m : ℚ) * ts')).length ≤
      (D3.pair_conflicts d1 d2 p1 p2 s ts').length := by
  rw [D3.pair_conflicts_eq3, D3.pair_conflicts_eq3]
  simp only []
  by_cases hdeg : (D3.sort_path_by_time p1).length < 2 ∨
      (D3.sort_path_by_time p2).length < 2
  · rw [if_pos hdeg, if_pos hdeg]
  · rw [if_neg hdeg, if_neg hdeg]
    by_cases hd0 : D3.overlap_end (D3.sort_path_by_time p1) (D3.sort_path_by_time p2) -
        D3.overlap_start (D3.sort_path_by_time p1) (D3.sort_path_by_time p2) ≤ 0
    · rw [if_pos hd0, if_pos hd0]
    · rw [if_neg hd0, if_neg hd0]
      have hmD : (m : ℚ) * ts' <
          D3.overlap_end (D3.sort_path_by_time p1) (D3.sort_path_by_time p2) -
            D3.overlap_start (D3.sort_path_by_time p1) (D3.sort_path_by_time p2) := by
        tauto
      have hm1 : (1 : ℚ) ≤ (m : ℚ) := by exact_mod_cast hm
      have hts : ts' ≤ (m : ℚ) * ts' := by nlinarith
      have he1 : D3.effective_step_of ((m : ℚ) * ts')
          (D3.overlap_end (D3.sort_path_by_time p1) (D3.sort_path_by_time p2) -
            D3.overlap_start (D3.sort_path_by_time p1) (D3.sort_path_by_time p2)) =
          (m : ℚ) * ts' := by
        unfold D3.effective_step_of
        rw [if_neg (by linarith)]
      have he2 : D3.effective_step_of ts'
          (D3.overlap_end (D3.sort_path_by_time p1) (D3.sort_path_by_time p2) -
            D3.overlap_start (D3.sort_path_by_time p1) (D3.sort_path_by_time p2)) =
          ts' := by
        unfold D3.effective_step_of
        rw [if_neg (by linarith)]
      rw [he1, he2]
      have hms : (0 : ℚ) < (m : ℚ) * ts' := by nlinarith
      rw [if_neg (by linarith), if_neg (by linarith)]
      exact length_filterMap_le_of_subset _
        (sample_times_nodup _ _ (ne_of_gt hms))
        (sample_times_subset_of_divisor _ _ m hm h0)

theorem distance_sq_comm (a b : ℚ × ℚ) :
    D2.distance_sq b a = D2.distance_sq a b := by
  unfold D2.distance_sq
  ring

theorem distance_sq_comm3 (a b : ℚ × ℚ × ℚ) :
    D3.distance_sq b a = D3.distance_sq a b := by
  unfold D3.distance_sq
  ring

theorem filterMap_forall₂ {α β γ : Type} (f : α → Option β) (g : α → Option γ)
    (R : β → γ → Prop) (l : List α)
    (h : ∀ a ∈ l, (f a = none ∧ g a = none) ∨
      (∃ x y, f a = some x ∧ g a = some y ∧ R x y)) :
    List.Forall₂ R (l.filterMap f) (l.filterMap g) := by
  induction l with
  | nil => simp
  | cons a l ih =>
    have hl := ih (fun x hx => h x (by simp [hx]))
    rw [List.filterMap_cons, List.filterMap_cons]
    rcases h a (by simp) with ⟨hf, hg⟩ | ⟨x, y, hf, hg, hR⟩
    · rw [hf, hg]
      exact hl
    · rw [hf, hg]
      exact List.Forall₂.cons hR hl

theorem sample_event_swap (d1 d2 : String) (p1 p2 : List D2.Pt) (s t : ℚ) :
    (D2.sample_event d1 d2 p1 p2 s t = none ∧
      D2.sample_event d2 d1 p2 p1 s t = none) ∨
    (∃ x y, D2.sample_event d1 d2 p1 p2 s t = some x ∧
      D2.sample_event d2 d1 p2 p1 s t = some y ∧ swappedEvent x y) := by
  unfold D2.sample_event
  cases h1 : D2.get_position_at_time p1 t with
  | none =>
    cases h2 : D2.get_position_at_time p2 t with
    | none => exact Or.inl ⟨rfl, rfl⟩
    | some pos2 => exact Or.inl ⟨rfl, rfl⟩
  | some pos1 =>
    cases h2 : D2.get_position_at_time p2 t with
    | none => exact Or.inl ⟨rfl, rfl⟩
    | some pos2 =>
      simp only []
      rw [distance_sq_comm pos1 pos2]
      split_ifs with hc
      · exact Or.inr ⟨_, _, rfl, rfl, rfl, rfl, rfl⟩
      · exact Or.inl ⟨rfl, rfl⟩

theorem sample_event_swap3 (d1 d2 : String) (p1 p2 : List D3.Pt) (s t : ℚ) :
    (D3.sample_event d1 d2 p1 p2 s t = none ∧
      D3.sample_event d2 d1 p2 p1 s t = none) ∨
    (∃ x y, D3.sample_event d1 d2 p1 p2 s t = some x ∧
      D3.sample_event d2 d1 p2 p1 s t = some y ∧ swappedEvent3 x y) := by
  unfold D3.sample_event
  cases h1 : D3.get_position_at_time p1 t with
  | none =>
    cases h2 : D3.get_position_at_time p2 t with
    | none => exact Or.inl ⟨rfl, rfl⟩
    | some pos2 => exact Or.inl ⟨rfl, rfl⟩
  | some pos1 =>
    cases h2 : D3.get_position_at_time p2 t with
    | none => exact Or.inl ⟨rfl, rfl⟩
    | some pos2 =>
      simp only []
      rw [distance_sq_comm3 pos1 pos2]
      split_ifs with hc
      · exact Or.inr ⟨_, _, rfl, rfl, rfl, rfl, rfl⟩
      · exact Or.inl ⟨rfl, rfl⟩

theorem pair_conflicts_swap (d1 d2 : String) (p1 p2 : List D2.Pt) (s ts : ℚ) :
    List.Forall₂ swappedEvent (D2.pair_conflicts d1 d2 p1 p2 s ts)
      (D2.pair_conflicts d2 d1 p2 p1 s ts) := by
  rw [D2.pair_conflicts_eq, D2.pair_conflicts_eq]
  simp only []
  rw [show D2.overlap_start (D2.sort_path_by_time p2) (D2.sort_path_by_time p1) =
      D2.overlap_start (D2.sort_path_by_time p1) (D2.sort_path_by_time p2) from
      max_comm _ _,
    show D2.overlap_end (D2.sort_path_by_time p2) (D2.sort_path_by_time p1) =
      D2.overlap_end (D2.sort_path_by_time p1) (D2.sort_path_by_time p2) from
      min_comm _ _]
  by_cases hdeg : (D2.sort_path_by_time p1).length < 2 ∨
      (D2.sort_path_by_time p2).length < 2
  · rw [if_pos hdeg, if_pos (Or.comm.mp hdeg)]
    exact List.Forall₂.nil
  · rw [if_neg hdeg, if_neg (fun hc => hdeg (Or.comm.mp hc))]
    split_ifs with hdur hstep
    · exact List.Forall₂.nil
    · exact List.Forall₂.nil
    · exact filterMap_forall₂ _ _ _ _
        (fun t _ => sample_event_swap d1 d2 _ _ s t)

theorem pair_conflicts_swap3 (d1 d2 : String) (p1 p2 : List D3.Pt) (s ts : ℚ) :
    List.Forall₂ swappedEvent3 (D3.pair_conflicts d1 d2 p1 p2 s ts)
      (D3.pair_conflicts d2 d1 p2 p1 s ts) := by
  rw [D3.pair_conflicts_eq3, D3.pair_conflicts_eq3]
  simp only []
  rw [show D3.overlap_start (D3.sort_path_by_time p2) (D3.sort_path_by_time p1) =
      D3.overlap_start (D3.sort_path_by_time p1) (D3.sort_path_by_time p2) from
      max_comm _ _,
    show D3.overlap_end (D3.sort_path_by_time p2) (D3.sort_path_by_time p1) =
      D3.overlap_end (D3.sort_path_by_time p1) (D3.sort_path_by_time p2) from
      min_comm _ _]
  by_cases hdeg : (D3.sort_path_by_time p1).length < 2 ∨
      (D3.sort_path_by_time p2).length < 2
  · rw [if_pos hdeg, if_pos (Or.comm.mp hdeg)]
    exact List.Forall₂.nil
  · rw [if_neg hdeg, if_neg (fun hc => hdeg (Or.comm.mp hc))]
    split_ifs with hdur hstep
    · exact List.Forall₂.nil
    · exact List.Forall₂.nil
    · exact filterMap_forall₂ _ _ _ _
        (fun t _ => sample_event_swap3 d1 d2 _ _ s t)

theorem check_two_drones (a b : String) (pa pb : List D2.Pt) (s ts : ℚ) :
    (D2.check_all_paths_conflict [(a, pa), (b, pb)] s ts).conflicts =
      D2.pair_conflicts a b pa pb s ts := by
  rw [D2.check_conflicts_eq]
  simp [all_pairs]

theorem check_two_drones3 (a b : String) (pa pb : List D3.Pt) (s ts : ℚ) :
    (D3.check_all_paths_conflict [(a, pa), (b, pb)] s ts).conflicts =
      D3.pair_conflicts a b pa pb s ts := by
  rw [D3.check_conflicts_eq3]
  simp [all_pairs]

theorem sample_event_some_cond (d1 d2 : String) (p1 p2 : List D2.Pt)
    (s t : ℚ) (e : D2.ConflictEvent)
    (h : D2.sample_event d1 d2 p1 p2 s t = some e) :
    0 ≤ s ∧ e.distSq ≤ s ^ 2 := by
  unfold D2.sample_event at h
  cases h1 : D2.get_position_at_time p1 t with
  | none => rw [h1] at h; exact absurd h (by simp)
  | some pos1 =>
    cases h2 : D2.get_position_at_time p2 t with
    | none => rw [h1, h2] at h; exact absurd h (by simp)
    | some pos2 =>
      rw [h1, h2] at h
      simp only [] at h
      split_ifs at h with hc
      cases h
      exact hc

theorem sample_event_some_cond3 (d1 d2 : String) (p1 p2 : List D3.Pt)
    (s t : ℚ) (e : D3.ConflictEvent)
    (h : D3.sample_event d1 d2 p1 p2 s t = some e) :
    0 ≤ s ∧ e.distSq ≤ s ^ 2 := by
  unfold D3.sample_event at h
  cases h1 : D3.get_position_at_time p1 t with
  | none => rw [h1] at h; exact absurd h (by simp)
  | some pos1 =>
    cases h2 : D3.get_position_at_time p2 t with
    | none => rw [h1, h2] at h; exact absurd h (by simp)
    | some pos2 =>
      rw [h1, h2] at h
      simp only [] at h
      split_ifs at h with hc
      cases h
      exact hc

theorem pair_conflicts_mem_cond (d1 d2 : String) (p1 p2 : List D2.Pt)
    (s ts : ℚ) (e : D2.ConflictEvent)
    (he : e ∈ D2.pair_conflicts d1 d2 p1 p2 s ts) :
    0 ≤ s ∧ e.distSq ≤ s ^ 2 := by
  rw [D2.pair_conflicts_eq] at he
  simp only [] at he
  split_ifs at he
  · exact absurd he (by simp)
  · exact absurd he (by simp)
  · exact absurd he (by simp)
  · rw [List.mem_filterMap] at he
    obtain ⟨t, _, hse⟩ := he
    exact sample_event_some_cond d1 d2 _ _ s t e hse

theorem pair_conflicts_mem_cond3 (d1 d2 : String) (p1 p2 : List D3.Pt)
    (s ts : ℚ) (e : D3.ConflictEvent)
    (he : e ∈ D3.pair_conflicts d1 d2 p1 p2 s ts) :
    0 ≤ s ∧ e.distSq ≤ s ^ 2 := by
  rw [D3.pair_conflicts_eq3] at he
  simp only [] at he
  split_ifs at he
  · exact absurd he (by simp)
  · exact absurd he (by simp)
  · exact absurd he (by simp)
  · rw [List.mem_filterMap] at he
    obtain ⟨t, _, hse⟩ := he
    exact sample_event_some_cond3 d1 d2 _ _ s t e hse

theorem check_mem_cond (fleet : List (String × List D2.Pt)) (s ts : ℚ)
    (e : D2.ConflictEvent)
    (he : e ∈ (D2.check_all_paths_conflict fleet s ts).conflicts) :
    0 ≤ s ∧ e.distSq ≤ s ^ 2 := by
  rw [D2.check_conflicts_eq, List.mem_flatMap] at he
  obtain ⟨pr, _, hpe⟩ := he
  exact pair_conflicts_mem_cond _ _ _ _ s ts e hpe

theorem check_mem_cond3 (fleet : List (String × List D3.Pt)) (s ts : ℚ)
    (e : D3.ConflictEvent)
    (he : e ∈ (D3.check_all_paths_conflict fleet s ts).conflicts) :
    0 ≤ s ∧ e.distSq ≤ s ^ 2 := by
  rw [D3.check_conflicts_eq3, List.mem_flatMap] at he
  obtain ⟨pr, _, hpe⟩ := he
  exact pair_conflicts_mem_cond3 _ _ _ _ s ts e hpe

theorem mem_all_pairs {α : Type} {pr : α × α} :
    ∀ {l : List α}, pr ∈ all_pairs l → pr.1 ∈ l ∧ pr.2 ∈ l := by
  intro l
  induction l with
  | nil => intro h; exact absurd h (by simp [all_pairs])
  | cons x xs ih =>
    intro h
    rw [all_pairs, List.mem_append] at h
    rcases h with h | h
    · rw [List.mem_map] at h
      obtain ⟨y, hy, rfl⟩ := h
      exact ⟨by simp, by simp [hy]⟩
    · have := ih h
      exact ⟨by simp [this.1], by simp [this.2]⟩

theorem status_cases (st : Status) :
    st = Status.CLEAR ∨ st = Status.CONFLICT := by
  cases st
  · exact Or.inl rfl
  · exact Or.inr rfl

theorem check_status_clear_iff (fleet : List (String × List D2.Pt)) (s ts : ℚ) :
    (D2.check_all_paths_conflict fleet s ts).status = Status.CLEAR ↔
      (D2.check_all_paths_conflict fleet s ts).conflicts = [] := by
  have h := D2.check_status_conflict_iff fleet s ts
  constructor
  · intro hs
    by_contra hne
    have h2 := h.mpr hne
    rw [hs] at h2
    cases h2
  · intro hnil
    rcases status_cases (D2.check_all_paths_conflict fleet s ts).status with hs | hs
    · exact hs
    · exact absurd hnil (h.mp hs)

theorem check_status_clear_iff3 (fleet : List (String × List D3.Pt)) (s ts : ℚ) :
    (D3.check_all_paths_conflict fleet s ts).status = Status.CLEAR ↔
      (D3.check_all_paths_conflict fleet s ts).conflicts = [] := by
  have h := D3.check_status_conflict_iff3 fleet s ts
  constructor
  · intro hs
    by_contra hne
    have h2 := h.mpr hne
    rw [hs] at h2
    cases h2
  · intro hnil
    rcases status_cases (D3.check_all_paths_conflict fleet s ts).status with hs | hs
    · exact hs
    · exact absurd hnil (h.mp hs)

theorem check_clear_of_small (fleet : List (String × List D2.Pt)) (s ts : ℚ)
    (h : fleet.length ≤ 1) :
    D2.check_all_paths_conflict fleet s ts =
      { status := .CLEAR, conflicts := [] } := by
  have hap : all_pairs fleet = [] := by
    match fleet, h with
    | [], _ => rfl
    | [x], _ => rfl
  simp only [D2.check_all_paths_conflict]
  rw [hap]
  rfl

theorem check_clear_of_small3 (fleet : List (String × List D3.Pt)) (s ts : ℚ)
    (h : fleet.length ≤ 1) :
    D3.check_all_paths_conflict fleet s ts =
      { status := .CLEAR, conflicts := [] } := by
  have hap : all_pairs fleet = [] := by
    match fleet, h with
    | [], _ => rfl
    | [x], _ => rfl
  simp only [D3.check_all_paths_conflict]
  rw [hap]
  rfl

theorem check_clear_of_degenerate (fleet : List (String × List D2.Pt))
    (s ts : ℚ) (h : ∀ e ∈ fleet, (e.2).length < 2) :
    D2.check_all_paths_conflict fleet s ts =
      { status := .CLEAR, conflicts := [] } := by
  have hpair : ∀ pr ∈ all_pairs fleet,
      D2.pair_conflicts pr.1.1 pr.2.1 pr.1.2 pr.2.2 s ts = [] := by
    intro pr hpr
    have h1 := h pr.1 (mem_all_pairs hpr).1
    rw [D2.pair_conflicts_eq]
    simp only []
    rw [if_pos (Or.inl (by rw [D2.sort_path_by_time_length]; exact h1))]
  simp only [D2.check_all_paths_conflict]
  rw [List.flatMap_eq_nil_iff.mpr hpair]
  rfl

theorem check_clear_of_degenerate3 (fleet : List (String × List D3.Pt))
    (s ts : ℚ) (h : ∀ e ∈ fleet, (e.2).length < 2) :
    D3.check_all_paths_conflict fleet s ts =
      { status := .CLEAR, conflicts := [] } := by
  have hpair : ∀ pr ∈ all_pairs fleet,
      D3.pair_conflicts pr.1.1 pr.2.1 pr.1.2 pr.2.2 s ts = [] := by
    intro pr hpr
    have h1 := h pr.1 (mem_all_pairs hpr).1
    rw [D3.pair_conflicts_eq3]
    simp only []
    rw [if_pos (Or.inl (by rw [D3.sort_path_by_time_length3]; exact h1))]
  simp only [D3.check_all_paths_conflict]
  rw [List.flatMap_eq_nil_iff.mpr hpair]
  rfl

/-- C3: on a trajectory sorted ascending by timestamp with at least 2
waypoints, `get_position_at_time` returns a position exactly for the times
in `[first.timestamp, last.timestamp]`, and on a trajectory with fewer than
2 waypoints it always returns no position (both the 2D and 3D variants). -/
theorem claim_C3_position_window (path2 : List D2.Pt) (path3 : List D3.Pt)
    (t : ℚ) (hs2 : D2.timeSorted path2) (hs3 : D3.timeSorted path3) :
    ((2 ≤ path2.length →
        ((D2.get_position_at_time path2 t).isSome ↔
          (D2.first_t path2 ≤ t ∧ t ≤ D2.last_t path2))) ∧
      (path2.length < 2 → D2.get_position_at_time path2 t = none)) ∧
    ((2 ≤ path3.length →
        ((D3.get_position_at_time path3 t).isSome ↔
          (D3.first_t path3 ≤ t ∧ t ≤ D3.last_t path3))) ∧
      (path3.length < 2 → D3.get_position_at_time path3 t = none)) :=
  ⟨⟨fun h2 => D2.get_position_isSome_iff path2 hs2 h2 t,
    fun h => D2.get_position_short h t⟩,
   ⟨fun h2 => D3.get_position_isSome_iff3 path3 hs3 h2 t,
    fun h => D3.get_position_short3 h t⟩⟩

/-- C3 witness: a concrete sorted 2-waypoint trajectory in each dimension,
queried at an interior time. -/
theorem claim_C3_position_window_witness :
    ((2 ≤ ([⟨0, 0, 0⟩, ⟨1, 1, 10⟩] : List D2.Pt).length →
        ((D2.get_position_at_time [⟨0, 0, 0⟩, ⟨1, 1, 10⟩] 5).isSome ↔
          (D2.first_t [⟨0, 0, 0⟩, ⟨1, 1, 10⟩] ≤ 5 ∧
            5 ≤ D2.last_t [⟨0, 0, 0⟩, ⟨1, 1, 10⟩]))) ∧
      (([⟨0, 0, 0⟩, ⟨1, 1, 10⟩] : List D2.Pt).length < 2 →
        D2.get_position_at_time [⟨0, 0, 0⟩, ⟨1, 1, 10⟩] 5 = none)) ∧
    ((2 ≤ ([⟨0, 0, 0, 0⟩, ⟨1, 1, 1, 10⟩] : List D3.Pt).length →
        ((D3.get_position_at_time [⟨0, 0, 0, 0⟩, ⟨1, 1, 1, 10⟩] 5).isSome ↔
          (D3.first_t [⟨0, 0, 0, 0⟩, ⟨1, 1, 1, 10⟩] ≤ 5 ∧
            5 ≤ D3.last_t [⟨0, 0, 0, 0⟩, ⟨1, 1, 1, 10⟩]))) ∧
      (([⟨0, 0, 0, 0⟩, ⟨1, 1, 1, 10⟩] : List D3.Pt).length < 2 →
        D3.get_position_at_time [⟨0, 0, 0, 0⟩, ⟨1, 1, 1, 10⟩] 5 = none)) :=
  claim_C3_position_window [⟨0, 0, 0⟩, ⟨1, 1, 10⟩] [⟨0, 0, 0, 0⟩, ⟨1, 1, 1, 10⟩]
    5 (by decide) (by decide)

/-- C4 (amended): on a trajectory whose timestamps are *strictly* increasing
(the original claim fails when consecutive waypoints share a timestamp),
`get_position_at_time` at `waypoint[i].timestamp` returns exactly
`waypoint[i].position`, in both variants; exact in `ℚ`. -/
theorem claim_C4_amended_exact_at_waypoints (path2 : List D2.Pt)
    (path3 : List D3.Pt) (hs2 : D2.strictTimeSorted path2)
    (hs3 : D3.strictTimeSorted path3) (h22 : 2 ≤ path2.length)
    (h23 : 2 ≤ path3.length) (i : ℕ) (hi : i < path2.length)
    (j : ℕ) (hj : j < path3.length) :
    D2.get_position_at_time path2 (path2[i].t) =
      some (path2[i].x, path2[i].y) ∧
    D3.get_position_at_time path3 (path3[j].t) =
      some (path3[j].x, path3[j].y, path3[j].z) :=
  ⟨D2.get_position_at_waypoint path2 hs2 h22 i hi,
   D3.get_position_at_waypoint3 path3 hs3 h23 j hj⟩

/-- C4 counterexample: with duplicate timestamps (allowed by a non-strict
ascending sort), lookup at `waypoint[1].timestamp = 0` returns
`waypoint[0]`'s position `(0, 0)`, not `waypoint[1]`'s position `(5, 5)`. -/
theorem claim_C4_counterexample :
    D2.timeSorted [⟨0, 0, 0⟩, ⟨5, 5, 0⟩, ⟨9, 9, 1⟩] ∧
    2 ≤ ([⟨0, 0, 0⟩, ⟨5, 5, 0⟩, ⟨9, 9, 1⟩] : List D2.Pt).length ∧
    ([⟨0, 0, 0⟩, ⟨5, 5, 0⟩, ⟨9, 9, 1⟩] : List D2.Pt)[1] = ⟨5, 5, 0⟩ ∧
    D2.get_position_at_time [⟨0, 0, 0⟩, ⟨5, 5, 0⟩, ⟨9, 9, 1⟩] 0 =
      some (0, 0) ∧
    some ((0 : ℚ), (0 : ℚ)) ≠ some ((5 : ℚ), (5 : ℚ)) := by
  refine ⟨?_, ?_, ?_, ?_, ?_⟩
  · decide
  · decide
  · decide
  · decide
  · decide

/-- C6: whenever the overlap window has positive duration and the requested
`time_step` is at least that duration, the effective step becomes
`duration / 20` (in both variants) and the sampling loop visits at least 19
times strictly inside the open overlap window. -/
theorem claim_C6_adaptive_step (start_time end_time ts : ℚ)
    (hdur : 0 < end_time - start_time) (hts : ts ≥ end_time - start_time) :
    D2.effective_step_of ts (end_time - start_time) =
      (end_time - start_time) / 20 ∧
    D3.effective_step_of ts (end_time - start_time) =
      (end_time - start_time) / 20 ∧
    19 ≤ ((sample_times start_time end_time ((end_time - start_time) / 20)).filter
      (fun t => decide (start_time < t ∧ t < end_time))).length := by
  have hne : end_time - start_time ≠ 0 := ne_of_gt hdur
  have hd20 : (0 : ℚ) < (end_time - start_time) / 20 := by positivity
  refine ⟨?_, ?_, ?_⟩
  · unfold D2.effective_step_of
    rw [if_pos hts]
  · unfold D3.effective_step_of
    rw [if_pos hts]
  · have hN : ⌊(end_time - start_time) / ((end_time - start_time) / 20)⌋ = 20 := by
      have hq : (end_time - start_time) / ((end_time - start_time) / 20) = 20 := by
        field_simp
      rw [hq]
      norm_num
    unfold sample_times
    rw [hN, List.filter_map, List.length_map]
    have hcong : List.filter ((fun t => decide (start_time < t ∧ t < end_time)) ∘
        (fun k : ℕ => start_time + (k + 1) * ((end_time - start_time) / 20)))
        (List.range (20 : ℤ).toNat) =
        List.filter (fun k => decide (k < 19)) (List.range (20 : ℤ).toNat) := by
      apply List.filter_congr
      intro k hk
      rw [List.mem_range] at hk
      simp only [Function.comp_apply, decide_eq_decide]
      have hk1 : (0 : ℚ) < (k : ℚ) + 1 := by positivity
      constructor
      · rintro ⟨_, hlt⟩
        have h20 : ((k : ℚ) + 1) * ((end_time - start_time) / 20) <
            20 * ((end_time - start_time) / 20) := by
          have h20' : end_time - start_time =
              20 * ((end_time - start_time) / 20) := by ring
          linarith [hlt, h20'.symm.le]
        have : (k : ℚ) + 1 < 20 := lt_of_mul_lt_mul_right (by linarith) hd20.le
        have : (k : ℚ) < 19 := by linarith
        exact_mod_cast this
      · intro hk19
        constructor
        · nlinarith
        · have hklt : (k : ℚ) + 1 < 20 := by
            have : (k : ℚ) < 19 := by exact_mod_cast hk19
            linarith
          nlinarith
    rw [hcong]
    decide

/-- C6 witness: overlap `[0, 1]` with requested step `5`. -/
theorem claim_C6_adaptive_step_witness :
    D2.effective_step_of 5 ((1 : ℚ) - 0) = ((1 : ℚ) - 0) / 20 ∧
    D3.effective_step_of 5 ((1 : ℚ) - 0) = ((1 : ℚ) - 0) / 20 ∧
    19 ≤ ((sample_times 0 1 (((1 : ℚ) - 0) / 20)).filter
      (fun t => decide ((0 : ℚ) < t ∧ t < 1))).length :=
  claim_C6_adaptive_step 0 1 5 (by norm_num) (by norm_num)

/-- C7: in both variants, the report's status is `CONFLICT` exactly when its
conflict sequence is non-empty and `CLEAR` otherwise; an empty fleet, a
single-drone fleet, and a fleet of all-degenerate trajectories each yield
the `CLEAR` report rather than an error. -/
theorem claim_C7_status_iff_conflicts (fleet2 : List (String × List D2.Pt))
    (fleet3 : List (String × List D3.Pt)) (s ts : ℚ) :
    (((D2.check_all_paths_conflict fleet2 s ts).status = Status.CONFLICT ↔
        (D2.check_all_paths_conflict fleet2 s ts).conflicts ≠ []) ∧
      ((D2.check_all_paths_conflict fleet2 s ts).status = Status.CLEAR ↔
        (D2.check_all_paths_conflict fleet2 s ts).conflicts = []) ∧
      (fleet2.length ≤ 1 → D2.check_all_paths_conflict fleet2 s ts =
        { status := .CLEAR, conflicts := [] }) ∧
      ((∀ e ∈ fleet2, (e.2).length < 2) →
        D2.check_all_paths_conflict fleet2 s ts =
          { status := .CLEAR, conflicts := [] })) ∧
    (((D3.check_all_paths_conflict fleet3 s ts).status = Status.CONFLICT ↔
        (D3.check_all_paths_conflict fleet3 s ts).conflicts ≠ []) ∧
      ((D3.check_all_paths_conflict fleet3 s ts).status = Status.CLEAR ↔
        (D3.check_all_paths_conflict fleet3 s ts).conflicts = []) ∧
      (fleet3.length ≤ 1 → D3.check_all_paths_conflict fleet3 s ts =
        { status := .CLEAR, conflicts := [] }) ∧
      ((∀ e ∈ fleet3, (e.2).length < 2) →
        D3.check_all_paths_conflict fleet3 s ts =
          { status := .CLEAR, conflicts := [] })) :=
  ⟨⟨D2.check_status_conflict_iff fleet2 s ts,
    check_status_clear_iff fleet2 s ts,
    check_clear_of_small fleet2 s ts,
    check_clear_of_degenerate fleet2 s ts⟩,
   ⟨D3.check_status_conflict_iff3 fleet3 s ts,
    check_status_clear_iff3 fleet3 s ts,
    check_clear_of_small3 fleet3 s ts,
    check_clear_of_degenerate3 fleet3 s ts⟩⟩

/-- C8: for fixed trajectories and time step, a smaller (positive) safety
distance never yields more reported conflicts, in both variants. -/
theorem claim_C8_safety_monotone (fleet2 : List (String × List D2.Pt))
    (fleet3 : List (String × List D3.Pt)) (ts : ℚ) {s s' : ℚ}
    (h0' : 0 < s') (h0 : 0 < s) (hss : s' < s) :
    (D2.check_all_paths_conflict fleet2 s' ts).conflicts.length ≤
      (D2.check_all_paths_conflict fleet2 s ts).conflicts.length ∧
    (D3.check_all_paths_conflict fleet3 s' ts).conflicts.length ≤
      (D3.check_all_paths_conflict fleet3 s ts).conflicts.length := by
  constructor
  · rw [D2.check_conflicts_eq, D2.check_conflicts_eq]
    apply length_flatMap_le
    intro pr _
    exact pair_conflicts_length_mono_s pr.1.1 pr.2.1 pr.1.2 pr.2.2 ts
      h0'.le hss.le
  · rw [D3.check_conflicts_eq3, D3.check_conflicts_eq3]
    apply length_flatMap_le
    intro pr _
    exact pair_conflicts_length_mono_s3 pr.1.1 pr.2.1 pr.1.2 pr.2.2 ts
      h0'.le hss.le

/-- C8 witness: two stationary drones 1 apart over `[0, 10]`, step 5, safety
distances 2 < 5. -/
theorem claim_C8_safety_monotone_witness :
    (D2.check_all_paths_conflict
        [("A", [⟨0, 0, 0⟩, ⟨0, 0, 10⟩]), ("B", [⟨1, 0, 0⟩, ⟨1, 0, 10⟩])]
        2 5).conflicts.length ≤
      (D2.check_all_paths_conflict
        [("A", [⟨0, 0, 0⟩, ⟨0, 0, 10⟩]), ("B", [⟨1, 0, 0⟩, ⟨1, 0, 10⟩])]
        5 5).conflicts.length ∧
    (D3.check_all_paths_conflict
        [("A", [⟨0, 0, 0, 0⟩, ⟨0, 0, 0, 10⟩]), ("B", [⟨1, 0, 0, 0⟩, ⟨1, 0, 0, 10⟩])]
        2 5).conflicts.length ≤
      (D3.check_all_paths_conflict
        [("A", [⟨0, 0, 0, 0⟩, ⟨0, 0, 0, 10⟩]), ("B", [⟨1, 0, 0, 0⟩, ⟨1, 0, 0, 10⟩])]
        5 5).conflicts.length :=
  claim_C8_safety_monotone _ _ 5 (by norm_num) (by norm_num) (by norm_num)

/-- C9: the 3D detector run on a 2D fleet lifted by `z = 0` produces the
same status and, event for event, the same time, squared distance and pair,
with each location equal to the 2D location extended by a third coordinate
of `0` (the content of `liftEvent`). -/
theorem claim_C9_dimension_lift (fleet : List (String × List D2.Pt))
    (s ts : ℚ) :
    (D3.check_all_paths_conflict (liftFleet fleet) s ts).status =
      (D2.check_all_paths_conflict fleet s ts).status ∧
    (D3.check_all_paths_conflict (liftFleet fleet) s ts).conflicts =
      (D2.check_all_paths_conflict fleet s ts).conflicts.map liftEvent :=
  ⟨check_status_lift fleet s ts, check_conflicts_lift fleet s ts⟩

/-- C10: a non-positive `time_step` (with positive safety distance) still
terminates and yields the `CLEAR` report with no conflicts, in both
variants: every pair is skipped either at the overlap test or at the
non-positive effective-step test. -/
theorem claim_C10_nonpositive_step_clear (fleet2 : List (String × List D2.Pt))
    (fleet3 : List (String × List D3.Pt)) (s ts : ℚ)
    (hs : 0 < s) (hts : ts ≤ 0) :
    D2.check_all_paths_conflict fleet2 s ts =
      { status := .CLEAR, conflicts := [] } ∧
    D3.check_all_paths_conflict fleet3 s ts =
      { status := .CLEAR, conflicts := [] } := by
  constructor
  · have hpair : ∀ pr ∈ all_pairs fleet2,
        D2.pair_conflicts pr.1.1 pr.2.1 pr.1.2 pr.2.2 s ts = [] := by
      intro pr _
      rw [D2.pair_conflicts_eq]
      simp only []
      split_ifs with h1 h2 h3
      · rfl
      · rfl
      · rfl
      · exfalso
        apply h3
        unfold D2.effective_step_of
        rw [if_neg (by push_neg; linarith [not_le.mp h2])]
        exact hts
    simp only [D2.check_all_paths_conflict]
    rw [List.flatMap_eq_nil_iff.mpr hpair]
    rfl
  · have hpair : ∀ pr ∈ all_pairs fleet3,
        D3.pair_conflicts pr.1.1 pr.2.1 pr.1.2 pr.2.2 s ts = [] := by
      intro pr _
      rw [D3.pair_conflicts_eq3]
      simp only []
      split_ifs with h1 h2 h3
      · rfl
      · rfl
      · rfl
      · exfalso
        apply h3
        unfold D3.effective_step_of
        rw [if_neg (by push_neg; linarith [not_le.mp h2])]
        exact hts
    simp only [D3.check_all_paths_conflict]
    rw [List.flatMap_eq_nil_iff.mpr hpair]
    rfl

/-- C10 witness: step `0` on a two-drone fleet that would conflict at any
positive step. -/
theorem claim_C10_nonpositive_step_clear_witness :
    D2.check_all_paths_conflict
      [("A", [⟨0, 0, 0⟩, ⟨0, 0, 10⟩]), ("B", [⟨1, 0, 0⟩, ⟨1, 0, 10⟩])] 5 0 =
      { status := .CLEAR, conflicts := [] } ∧
    D3.check_all_paths_conflict
      [("A", [⟨0, 0, 0, 0⟩, ⟨0, 0, 0, 10⟩]),
       ("B", [⟨1, 0, 0, 0⟩, ⟨1, 0, 0, 10⟩])] 5 0 =
      { status := .CLEAR, conflicts := [] } :=
  claim_C10_nonpositive_step_clear _ _ 5 0 (by norm_num) (by norm_num)

/-- C5 (amended): swapping the enumeration order of a two-drone fleet yields
the same status and, event for event, the same time and (squared) distance
with the pair label flipped.  The original claim's "same location" fails:
the reported location is the interpolated position of the first-listed drone
of the pair, so the two orders report the two drones' respective positions. -/
theorem claim_C5_amended_pair_symmetric (a b : String) (pa pb : List D2.Pt)
    (pa3 pb3 : List D3.Pt) (s ts : ℚ) :
    ((D2.check_all_paths_conflict [(a, pa), (b, pb)] s ts).status =
        (D2.check_all_paths_conflict [(b, pb), (a, pa)] s ts).status ∧
      List.Forall₂ swappedEvent
        (D2.check_all_paths_conflict [(a, pa), (b, pb)] s ts).conflicts
        (D2.check_all_paths_conflict [(b, pb), (a, pa)] s ts).conflicts) ∧
    ((D3.check_all_paths_conflict [(a, pa3), (b, pb3)] s ts).status =
        (D3.check_all_paths_conflict [(b, pb3), (a, pa3)] s ts).status ∧
      List.Forall₂ swappedEvent3
        (D3.check_all_paths_conflict [(a, pa3), (b, pb3)] s ts).conflicts
        (D3.check_all_paths_conflict [(b, pb3), (a, pa3)] s ts).conflicts) := by
  constructor
  · have hf : List.Forall₂ swappedEvent
        (D2.check_all_paths_conflict [(a, pa), (b, pb)] s ts).conflicts
        (D2.check_all_paths_conflict [(b, pb), (a, pa)] s ts).conflicts := by
      rw [check_two_drones, check_two_drones]
      exact pair_conflicts_swap a b pa pb s ts
    refine ⟨?_, hf⟩
    by_cases hnil : (D2.check_all_paths_conflict [(a, pa), (b, pb)] s ts).conflicts = []
    · have hnil2 : (D2.check_all_paths_conflict [(b, pb), (a, pa)] s ts).conflicts = [] := by
        have hlen := hf.length_eq
        rw [hnil] at hlen
        exact List.length_eq_zero.mp hlen.symm
      rw [(check_status_clear_iff _ s ts).mpr hnil,
        (check_status_clear_iff _ s ts).mpr hnil2]
    · have hnil2 : (D2.check_all_paths_conflict [(b, pb), (a, pa)] s ts).conflicts ≠ [] := by
        intro hc
        apply hnil
        have hlen := hf.length_eq
        rw [hc] at hlen
        exact List.length_eq_zero.mp hlen
      rw [(D2.check_status_conflict_iff _ s ts).mpr hnil,
        (D2.check_status_conflict_iff _ s ts).mpr hnil2]
  · have hf : List.Forall₂ swappedEvent3
        (D3.check_all_paths_conflict [(a, pa3), (b, pb3)] s ts).conflicts
        (D3.check_all_paths_conflict [(b, pb3), (a, pa3)] s ts).conflicts := by
      rw [check_two_drones3, check_two_drones3]
      exact pair_conflicts_swap3 a b pa3 pb3 s ts
    refine ⟨?_, hf⟩
    by_cases hnil : (D3.check_all_paths_conflict [(a, pa3), (b, pb3)] s ts).conflicts = []
    · have hnil2 : (D3.check_all_paths_conflict [(b, pb3), (a, pa3)] s ts).conflicts = [] := by
        have hlen := hf.length_eq
        rw [hnil] at hlen
        exact List.length_eq_zero.mp hlen.symm
      rw [(check_status_clear_iff3 _ s ts).mpr hnil,
        (check_status_clear_iff3 _ s ts).mpr hnil2]
    · have hnil2 : (D3.check_all_paths_conflict [(b, pb3), (a, pa3)] s ts).conflicts ≠ [] := by
        intro hc
        apply hnil
        have hlen := hf.length_eq
        rw [hc] at hlen
        exact List.length_eq_zero.mp hlen
      rw [(D3.check_status_conflict_iff3 _ s ts).mpr hnil,
        (D3.check_status_conflict_iff3 _ s ts).mpr hnil2]

theorem round2_one : round2 1 = 1 := by
  unfold round2 roundHalfEven
  norm_num

/-- C5 counterexample: two stationary drones 1 apart, safety 5, step 5.
Scanning (A, B) reports location `(0, 0)` (A's position) for every event;
scanning (B, A) reports `(1, 0)` (B's position): corresponding events do
not have the same location, refuting the claim as stated. -/
theorem claim_C5_counterexample :
    ((D2.check_all_paths_conflict
        [("A", [⟨0, 0, 0⟩, ⟨0, 0, 10⟩]), ("B", [⟨1, 0, 0⟩, ⟨1, 0, 10⟩])]
        5 5).conflicts.map (fun e => e.location)) = [(0, 0), (0, 0)] ∧
    ((D2.check_all_paths_conflict
        [("B", [⟨1, 0, 0⟩, ⟨1, 0, 10⟩]), ("A", [⟨0, 0, 0⟩, ⟨0, 0, 10⟩])]
        5 5).conflicts.map (fun e => e.location)) = [(1, 0), (1, 0)] ∧
    ((0 : ℚ), (0 : ℚ)) ≠ ((1 : ℚ), (0 : ℚ)) := by
  refine ⟨?_, ?_, by decide⟩
  · rw [check_two_drones, D2.pair_conflicts_eq]
    rw [D2.sort_path_by_time_of_sorted
        (show D2.timeSorted [⟨0, 0, 0⟩, ⟨0, 0, 10⟩] by decide),
      D2.sort_path_by_time_of_sorted
        (show D2.timeSorted [⟨1, 0, 0⟩, ⟨1, 0, 10⟩] by decide)]
    simp only []
    norm_num [D2.first_t, D2.last_t, D2.overlap_start, D2.overlap_end,
      D2.effective_step_of]
    have hfl : ⌊((10 : ℚ) - 0) / 5⌋ = 2 := by norm_num [Int.floor_eq_iff]
    rw [sample_times, hfl]
    rw [show List.range (Int.toNat 2) = [0, 1] from rfl]
    rw [List.map_cons, List.map_cons, List.map_nil]
    norm_num [List.filterMap_cons, D2.sample_event, D2.get_position_at_time,
      D2.interpolate, D2.distance_sq, round2_zero]
  · rw [check_two_drones, D2.pair_conflicts_eq]
    rw [D2.sort_path_by_time_of_sorted
        (show D2.timeSorted [⟨1, 0, 0⟩, ⟨1, 0, 10⟩] by decide),
      D2.sort_path_by_time_of_sorted
        (show D2.timeSorted [⟨0, 0, 0⟩, ⟨0, 0, 10⟩] by decide)]
    simp only []
    norm_num [D2.first_t, D2.last_t, D2.overlap_start, D2.overlap_end,
      D2.effective_step_of]
    have hfl : ⌊((10 : ℚ) - 0) / 5⌋ = 2 := by norm_num [Int.floor_eq_iff]
    rw [sample_times, hfl]
    rw [show List.range (Int.toNat 2) = [0, 1] from rfl]
    rw [List.map_cons, List.map_cons, List.map_nil]
    norm_num [List.filterMap_cons, D2.sample_event, D2.get_position_at_time,
      D2.interpolate, D2.distance_sq, round2_zero, round2_one]

theorem round2_4996' : round2 (4996 / 1000) = 5 := by
  have hq : (100 : ℚ) * (4996 / 1000) = 4996 / 10 := by norm_num
  have hfl : ⌊(4996 / 10 : ℚ)⌋ = 499 := by norm_num [Int.floor_eq_iff]
  unfold round2 roundHalfEven
  rw [hq, Int.fract, hfl]
  norm_num

/-- C2 counterexample: drones permanently 4.996 m apart, safety distance
4.998 m.  Every sample is a conflict (4.996 ≤ 4.998), the stored squared
distance is 4.996², whose square root 4.996 rounds to 5.00 — strictly more
than the safety distance 4.998, refuting the claim on the rounded value. -/
theorem claim_C2_counterexample :
    ((D2.check_all_paths_conflict
        [("A", [⟨0, 0, 0⟩, ⟨0, 0, 10⟩]),
         ("B", [⟨4996 / 1000, 0, 0⟩, ⟨4996 / 1000, 0, 10⟩])]
        (4998 / 1000) 5).conflicts.map (fun e => e.distSq)) =
      [(4996 / 1000 : ℚ) ^ 2, (4996 / 1000 : ℚ) ^ 2] ∧
    Real.sqrt (((4996 / 1000 : ℚ) ^ 2 : ℚ) : ℝ) = ((4996 / 1000 : ℚ) : ℝ) ∧
    round2 (4996 / 1000) = 5 ∧
    ¬ ((5 : ℚ) ≤ 4998 / 1000) := by
  refine ⟨?_, ?_, round2_4996', by norm_num⟩
  · rw [check_two_drones, D2.pair_conflicts_eq]
    rw [D2.sort_path_by_time_of_sorted
        (show D2.timeSorted [⟨0, 0, 0⟩, ⟨0, 0, 10⟩] by decide),
      D2.sort_path_by_time_of_sorted
        (show D2.timeSorted [⟨4996 / 1000, 0, 0⟩, ⟨4996 / 1000, 0, 10⟩] by decide)]
    simp only []
    norm_num [D2.first_t, D2.last_t, D2.overlap_start, D2.overlap_end,
      D2.effective_step_of]
    have hfl : ⌊((10 : ℚ) - 0) / 5⌋ = 2 := by norm_num [Int.floor_eq_iff]
    rw [sample_times, hfl]
    rw [show List.range (Int.toNat 2) = [0, 1] from rfl]
    rw [List.map_cons, List.map_cons, List.map_nil]
    norm_num [List.filterMap_cons, D2.sample_event, D2.get_position_at_time,
      D2.interpolate, D2.distance_sq]
  · push_cast
    exact Real.sqrt_sq (by norm_num)

/-- C2 (amended): every reported conflict event's true, pre-rounding
separation distance — the square root of the stored squared distance — is
at most the supplied safety distance, in both variants.  (The 2-decimal
rounded reported value can exceed the safety distance, as the
counterexample shows.) -/
theorem claim_C2_amended_true_distance (fleet2 : List (String × List D2.Pt))
    (fleet3 : List (String × List D3.Pt)) (s ts : ℚ)
    (e2 : D2.ConflictEvent) (e3 : D3.ConflictEvent)
    (he2 : e2 ∈ (D2.check_all_paths_conflict fleet2 s ts).conflicts)
    (he3 : e3 ∈ (D3.check_all_paths_conflict fleet3 s ts).conflicts) :
    Real.sqrt ((e2.distSq : ℚ) : ℝ) ≤ ((s : ℚ) : ℝ) ∧
    Real.sqrt ((e3.distSq : ℚ) : ℝ) ≤ ((s : ℚ) : ℝ) :=
  ⟨(conflict_cond_iff_sqrt_le _ _).mp (check_mem_cond fleet2 s ts e2 he2),
   (conflict_cond_iff_sqrt_le _ _).mp (check_mem_cond3 fleet3 s ts e3 he3)⟩

/-- C2 witness: two stationary drones 1 m apart, safety 5, in both variants;
the first reported event has squared distance 1 and `sqrt 1 ≤ 5`. -/
theorem claim_C2_amended_true_distance_witness :
    Real.sqrt ((1 : ℚ) : ℝ) ≤ ((5 : ℚ) : ℝ) ∧
    Real.sqrt ((1 : ℚ) : ℝ) ≤ ((5 : ℚ) : ℝ) :=
  claim_C2_amended_true_distance
    [("A", [⟨0, 0, 0⟩, ⟨0, 0, 10⟩]), ("B", [⟨1, 0, 0⟩, ⟨1, 0, 10⟩])]
    [("A", [⟨0, 0, 0, 0⟩, ⟨0, 0, 0, 10⟩]), ("B", [⟨1, 0, 0, 0⟩, ⟨1, 0, 0, 10⟩])]
    5 5
    ⟨round2 5, (round2 0, round2 0), 1, ("A", "B")⟩
    ⟨round2 5, (round2 0, round2 0, round2 0), 1, ("A", "B")⟩
    (by
      have hconf : (D2.check_all_paths_conflict
          [("A", [⟨0, 0, 0⟩, ⟨0, 0, 10⟩]), ("B", [⟨1, 0, 0⟩, ⟨1, 0, 10⟩])]
          5 5).conflicts =
          [⟨round2 5, (round2 0, round2 0), 1, ("A", "B")⟩,
           ⟨round2 10, (round2 0, round2 0), 1, ("A", "B")⟩] := by
        rw [check_two_drones, D2.pair_conflicts_eq]
        rw [D2.sort_path_by_time_of_sorted
            (show D2.timeSorted [⟨0, 0, 0⟩, ⟨0, 0, 10⟩] by decide),
          D2.sort_path_by_time_of_sorted
            (show D2.timeSorted [⟨1, 0, 0⟩, ⟨1, 0, 10⟩] by decide)]
        simp only []
        norm_num [D2.first_t, D2.last_t, D2.overlap_start, D2.overlap_end,
          D2.effective_step_of]
        have hfl : ⌊((10 : ℚ) - 0) / 5⌋ = 2 := by norm_num [Int.floor_eq_iff]
        rw [sample_times, hfl]
        rw [show List.range (Int.toNat 2) = [0, 1] from rfl]
        rw [List.map_cons, List.map_cons, List.map_nil]
        norm_num [List.filterMap_cons, D2.sample_event, D2.get_position_at_time,
          D2.interpolate, D2.distance_sq]
      rw [hconf]
      exact List.mem_cons_self _ _)
    (by
      have hconf : (D3.check_all_paths_conflict
          [("A", [⟨0, 0, 0, 0⟩, ⟨0, 0, 0, 10⟩]),
           ("B", [⟨1, 0, 0, 0⟩, ⟨1, 0, 0, 10⟩])] 5 5).conflicts =
          [⟨round2 5, (round2 0, round2 0, round2 0), 1, ("A", "B")⟩,
           ⟨round2 10, (round2 0, round2 0, round2 0), 1, ("A", "B")⟩] := by
        rw [check_two_drones3, D3.pair_conflicts_eq3]
        rw [D3.sort_path_by_time_of_sorted3
            (show D3.timeSorted [⟨0, 0, 0, 0⟩, ⟨0, 0, 0, 10⟩] by decide),
          D3.sort_path_by_time_of_sorted3
            (show D3.timeSorted [⟨1, 0, 0, 0⟩, ⟨1, 0, 0, 10⟩] by decide)]
        simp only []
        norm_num [D3.first_t, D3.last_t, D3.overlap_start, D3.overlap_end,
          D3.effective_step_of]
        have hfl : ⌊((10 : ℚ) - 0) / 5⌋ = 2 := by norm_num [Int.floor_eq_iff]
        rw [sample_times, hfl]
        rw [show List.range (Int.toNat 2) = [0, 1] from rfl]
        rw [List.map_cons, List.map_cons, List.map_nil]
        norm_num [List.filterMap_cons, D3.sample_event, D3.get_position_at_time,
          D3.interpolate, D3.distance_sq]
      rw [hconf]
      exact List.mem_cons_self _ _)

/-- C1 (amended): refining the time step by an integer factor (and staying
below every pair's overlap duration, so the adaptive-step replacement fires
for neither step) never decreases the number of detected conflicts, in both
variants.  For an arbitrary smaller step the original claim is false: the
finer grid can miss a short conflict the coarser grid hits. -/
theorem claim_C1_amended_step_divisor (fleet2 : List (String × List D2.Pt))
    (fleet3 : List (String × List D3.Pt)) (s : ℚ) {ts' : ℚ} (m : ℕ)
    (hm : 1 ≤ m) (h0 : 0 < ts')
    (hdur2 : ∀ pr ∈ all_pairs fleet2,
      D2.overlap_end (D2.sort_path_by_time pr.1.2) (D2.sort_path_by_time pr.2.2) -
        D2.overlap_start (D2.sort_path_by_time pr.1.2)
          (D2.sort_path_by_time pr.2.2) ≤ 0 ∨
      (m : ℚ) * ts' <
        D2.overlap_end (D2.sort_path_by_time pr.1.2) (D2.sort_path_by_time pr.2.2) -
          D2.overlap_start (D2.sort_path_by_time pr.1.2)
            (D2.sort_path_by_time pr.2.2))
    (hdur3 : ∀ pr ∈ all_pairs fleet3,
      D3.overlap_end (D3.sort_path_by_time pr.1.2) (D3.sort_path_by_time pr.2.2) -
        D3.overlap_start (D3.sort_path_by_time pr.1.2)
          (D3.sort_path_by_time pr.2.2) ≤ 0 ∨
      (m : ℚ) * ts' <
        D3.overlap_end (D3.sort_path_by_time pr.1.2) (D3.sort_path_by_time pr.2.2) -
          D3.overlap_start (D3.sort_path_by_time pr.1.2)
            (D3.sort_path_by_time pr.2.2)) :
    (D2.check_all_paths_conflict fleet2 s ((m : ℚ) * ts')).conflicts.length ≤
      (D2.check_all_paths_conflict fleet2 s ts').conflicts.length ∧
    (D3.check_all_paths_conflict fleet3 s ((m : ℚ) * ts')).conflicts.length ≤
      (D3.check_all_paths_conflict fleet3 s ts').conflicts.length := by
  constructor
  · rw [D2.check_conflicts_eq, D2.check_conflicts_eq]
    apply length_flatMap_le
    intro pr hpr
    exact pair_conflicts_length_step_divisor pr.1.1 pr.2.1 pr.1.2 pr.2.2 s
      m hm h0 (hdur2 pr hpr)
  · rw [D3.check_conflicts_eq3, D3.check_conflicts_eq3]
    apply length_flatMap_le
    intro pr hpr
    exact pair_conflicts_length_step_divisor3 pr.1.1 pr.2.1 pr.1.2 pr.2.2 s
      m hm h0 (hdur3 pr hpr)

/-- C1 counterexample: drone A sits at the origin for `t ∈ [0, 2]`; drone B
sweeps in to the origin at `t = 1` and back out.  With safety 5, step 1
samples exactly `t = 1` and finds 1 conflict; the finer step 3/5 samples
`t = 3/5, 6/5, 9/5`, misses the close approach, and finds 0 conflicts — so
decreasing the step decreased the number of detected conflicts. -/
theorem claim_C1_counterexample :
    (0 : ℚ) < 3 / 5 ∧ (3 / 5 : ℚ) < 1 ∧
    (D2.check_all_paths_conflict
      [("A", [⟨0, 0, 0⟩, ⟨0, 0, 2⟩]),
       ("B", [⟨100, 0, 0⟩, ⟨0, 0, 1⟩, ⟨100, 0, 2⟩])] 5 (3 / 5)).conflicts.length = 0 ∧
    (D2.check_all_paths_conflict
      [("A", [⟨0, 0, 0⟩, ⟨0, 0, 2⟩]),
       ("B", [⟨100, 0, 0⟩, ⟨0, 0, 1⟩, ⟨100, 0, 2⟩])] 5 1).conflicts.length = 1 := by
  refine ⟨by norm_num, by norm_num, ?_, ?_⟩
  · rw [check_two_drones, D2.pair_conflicts_eq]
    rw [D2.sort_path_by_time_of_sorted
        (show D2.timeSorted [⟨0, 0, 0⟩, ⟨0, 0, 2⟩] by decide),
      D2.sort_path_by_time_of_sorted
        (show D2.timeSorted [⟨100, 0, 0⟩, ⟨0, 0, 1⟩, ⟨100, 0, 2⟩] by decide)]
    simp only []
    norm_num [D2.first_t, D2.last_t, D2.overlap_start, D2.overlap_end,
      D2.effective_step_of]
    have hfl : ⌊((2 : ℚ) - 0) / (3 / 5)⌋ = 3 := by norm_num [Int.floor_eq_iff]
    rw [sample_times, hfl]
    rw [show List.range (Int.toNat 3) = [0, 1, 2] from rfl]
    rw [List.map_cons, List.map_cons, List.map_cons, List.map_nil]
    norm_num [List.filterMap_cons, D2.sample_event, D2.get_position_at_time,
      D2.interpolate, D2.distance_sq]
  · rw [check_two_drones, D2.pair_conflicts_eq]
    rw [D2.sort_path_by_time_of_sorted
        (show D2.timeSorted [⟨0, 0, 0⟩, ⟨0, 0, 2⟩] by decide),
      D2.sort_path_by_time_of_sorted
        (show D2.timeSorted [⟨100, 0, 0⟩, ⟨0, 0, 1⟩, ⟨100, 0, 2⟩] by decide)]
    simp only []
    norm_num [D2.first_t, D2.last_t, D2.overlap_start, D2.overlap_end,
      D2.effective_step_of]
    have hfl : ⌊((2 : ℚ) - 0) / 1⌋ = 2 := by norm_num [Int.floor_eq_iff]
    rw [sample_times, hfl]
    rw [show List.range (Int.toNat 2) = [0, 1] from rfl]
    rw [List.map_cons, List.map_cons, List.map_nil]
    norm_num [List.filterMap_cons, D2.sample_event, D2.get_position_at_time,
      D2.interpolate, D2.distance_sq]

/-- C1 witness: step 2 = 2 · 1 against step 1 on two stationary drones whose
overlap duration 10 exceeds step 2, in both variants. -/
theorem claim_C1_amended_step_divisor_witness :
    (D2.check_all_paths_conflict
        [("A", [⟨0, 0, 0⟩, ⟨0, 0, 10⟩]), ("B", [⟨1, 0, 0⟩, ⟨1, 0, 10⟩])]
        5 ((2 : ℕ) * (1 : ℚ))).conflicts.length ≤
      (D2.check_all_paths_conflict
        [("A", [⟨0, 0, 0⟩, ⟨0, 0, 10⟩]), ("B", [⟨1, 0, 0⟩, ⟨1, 0, 10⟩])]
        5 1).conflicts.length ∧
    (D3.check_all_paths_conflict
        [("A", [⟨0, 0, 0, 0⟩, ⟨0, 0, 0, 10⟩]), ("B", [⟨1, 0, 0, 0⟩, ⟨1, 0, 0, 10⟩])]
        5 ((2 : ℕ) * (1 : ℚ))).conflicts.length ≤
      (D3.check_all_paths_conflict
        [("A", [⟨0, 0, 0, 0⟩, ⟨0, 0, 0, 10⟩]), ("B", [⟨1, 0, 0, 0⟩, ⟨1, 0, 0, 10⟩])]
        5 1).conflicts.length :=
  claim_C1_amended_step_divisor
    [("A", [⟨0, 0, 0⟩, ⟨0, 0, 10⟩]), ("B", [⟨1, 0, 0⟩, ⟨1, 0, 10⟩])]
    [("A", [⟨0, 0, 0, 0⟩, ⟨0, 0, 0, 10⟩]), ("B", [⟨1, 0, 0, 0⟩, ⟨1, 0, 0, 10⟩])]
    5 2 (by norm_num) (by norm_num)
    (by
      intro pr hpr
      rw [show all_pairs
          [("A", ([⟨0, 0, 0⟩, ⟨0, 0, 10⟩] : List D2.Pt)),
           ("B", [⟨1, 0, 0⟩, ⟨1, 0, 10⟩])] =
          [(("A", [⟨0, 0, 0⟩, ⟨0, 0, 10⟩]), ("B", [⟨1, 0, 0⟩, ⟨1, 0, 10⟩]))]
          from rfl] at hpr
      rw [List.mem_singleton] at hpr
      subst hpr
      right
      rw [D2.sort_path_by_time_of_sorted
          (show D2.timeSorted [⟨0, 0, 0⟩, ⟨0, 0, 10⟩] by decide),
        D2.sort_path_by_time_of_sorted
          (show D2.timeSorted [⟨1, 0, 0⟩, ⟨1, 0, 10⟩] by decide)]
      norm_num [D2.overlap_end, D2.overlap_start, D2.first_t, D2.last_t])
    (by
      intro pr hpr
      rw [show all_pairs
          [("A", ([⟨0, 0, 0, 0⟩, ⟨0, 0, 0, 10⟩] : List D3.Pt)),
           ("B", [⟨1, 0, 0, 0⟩, ⟨1, 0, 0, 10⟩])] =
          [(("A", [⟨0, 0, 0, 0⟩, ⟨0, 0, 0, 10⟩]),
            ("B", [⟨1, 0, 0, 0⟩, ⟨1, 0, 0, 10⟩]))]
          from rfl] at hpr
      rw [List.mem_singleton] at hpr
      subst hpr
      right
      rw [D3.sort_path_by_time_of_sorted3
          (show D3.timeSorted [⟨0, 0, 0, 0⟩, ⟨0, 0, 0, 10⟩] by decide),
        D3.sort_path_by_time_of_sorted3
          (show D3.timeSorted [⟨1, 0, 0, 0⟩, ⟨1, 0, 0, 10⟩] by decide)]
      norm_num [D3.overlap_end, D3.overlap_start, D3.first_t, D3.last_t])

/-- C4 witness: a strictly increasing 2-waypoint trajectory in each
dimension, looked up at waypoint index 1. -/
theorem claim_C4_amended_exact_at_waypoints_witness :
    D2.get_position_at_time [⟨0, 0, 0⟩, ⟨2, 3, 10⟩]
      (([⟨0, 0, 0⟩, ⟨2, 3, 10⟩] : List D2.Pt)[1].t) =
      some (([⟨0, 0, 0⟩, ⟨2, 3, 10⟩] : List D2.Pt)[1].x,
        ([⟨0, 0, 0⟩, ⟨2, 3, 10⟩] : List D2.Pt)[1].y) ∧
    D3.get_position_at_time [⟨0, 0, 0, 0⟩, ⟨2, 3, 4, 10⟩]
      (([⟨0, 0, 0, 0⟩, ⟨2, 3, 4, 10⟩] : List D3.Pt)[1].t) =
      some (([⟨0, 0, 0, 0⟩, ⟨2, 3, 4, 10⟩] : List D3.Pt)[1].x,
        ([⟨0, 0, 0, 0⟩, ⟨2, 3, 4, 10⟩] : List D3.Pt)[1].y,
        ([⟨0, 0, 0, 0⟩, ⟨2, 3, 4, 10⟩] : List D3.Pt)[1].z) :=
  claim_C4_amended_exact_at_waypoints
    [⟨0, 0, 0⟩, ⟨2, 3, 10⟩] [⟨0, 0, 0, 0⟩, ⟨2, 3, 4, 10⟩]
    (by decide) (by decide) (by decide) (by decide)
    1 (by decide) 1 (by decide)

/-- C7 witness: a single-drone fleet with an empty path degrades to the
`CLEAR` report in both variants. -/
theorem claim_C7_status_iff_conflicts_witness :
    D2.check_all_paths_conflict [("A", ([] : List D2.Pt))] 1 1 =
      { status := .CLEAR, conflicts := [] } ∧
    D3.check_all_paths_conflict [("A", ([] : List D3.Pt))] 1 1 =
      { status := .CLEAR, conflicts := [] } :=
  ⟨(claim_C7_status_iff_conflicts [("A", [])] [("A", [])] 1 1).1.2.2.1
      (by norm_num),
   (claim_C7_status_iff_conflicts [("A", [])] [("A", [])] 1 1).2.2.2.1
      (by norm_num)⟩
